import Mathlib

/-!
Verification of the goatedscript tree-walking interpreter.

The repository ships the pipeline in several redundant drafts.  The file
`src/runtime/env.ts` contains three of them:

* draft 1 (lines 1-41): a bare `Environment` plus `createGlobalEnv`;
* draft 2 (lines 42-378): the full interpreter — typed checks on `+`,
  comparisons, `isTruthy` that treats only `null`/`undefined` as falsy;
* draft 3 (lines 379-584): a compressed interpreter — `isTruthy` is the
  JavaScript coercion `!!val`, `+` never raises, comparisons use raw
  JavaScript relational semantics, `IfStmt` passes a possibly-`undefined`
  else branch straight to `execute`, and `ForStmt` has a direct
  (non-desugared) execution path.

Both interpreter drafts are embedded below (`exec2`/`eval2` and
`exec3`/`eval3`) over a common AST (from `src/frontend/ast.ts`) and a
common store-based runtime state.  JavaScript machine doubles are
modelled as exact rationals plus an explicit `nan` value (no claim under
verification depends on floating-point rounding): a number is carried as
an explicit numerator/denominator pair (`JSNum`, kernel-computable, with
`JSNum.toRat` giving its mathematical value); object reference
equality on function values is abstracted as equality of declaration and
captured-environment address; JavaScript's `ToNumber` on strings is
modelled on the plain `digits[.digits]` grammar produced by the lexer
(everything else is `NaN`), and number formatting is exact on integers.
-/

/-- An exact JavaScript number: an integer numerator over a natural
denominator, not necessarily reduced.  All interpreter arithmetic works
on these pairs so that every run evaluates inside the Lean kernel;
`JSNum.toRat` recovers the rational value the pair denotes.  Every
number the interpreter manufactures has a positive denominator. -/
structure JSNum where
  n : Int
  d : Nat
deriving DecidableEq

/-- The integer `i` as a JavaScript number. -/
def JSNum.ofInt (i : Int) : JSNum := ⟨i, 1⟩

/-- The rational value a numerator/denominator pair denotes. -/
def JSNum.toRat (a : JSNum) : ℚ := (a.n : ℚ) / (a.d : ℚ)

/-- Value equality of two JavaScript numbers (`===` on doubles), by
cross-multiplication. -/
def jsnumEq (a b : JSNum) : Bool := decide (a.n * (b.d : Int) = b.n * (a.d : Int))

/-- Value order of two JavaScript numbers, by cross-multiplication
(correct whenever both denominators are positive). -/
def jsnumLt (a b : JSNum) : Bool := decide (a.n * (b.d : Int) < b.n * (a.d : Int))

/-- Negation. -/
def jsnumNeg (a : JSNum) : JSNum := ⟨-a.n, a.d⟩

/-- Exact addition. -/
def jsAdd (a b : JSNum) : JSNum := ⟨a.n * b.d + b.n * a.d, a.d * b.d⟩

/-- Exact subtraction. -/
def jsSub (a b : JSNum) : JSNum := ⟨a.n * b.d - b.n * a.d, a.d * b.d⟩

/-- Exact multiplication. -/
def jsMul (a b : JSNum) : JSNum := ⟨a.n * b.n, a.d * b.d⟩

/-- Exact division (the divisor's sign moves into the numerator so the
denominator stays natural; only reached behind the interpreter's
division-by-zero guard). -/
def jsDiv (a b : JSNum) : JSNum := ⟨a.n * b.d * b.n.sign, a.d * b.n.natAbs⟩

/-- Euclid's algorithm with explicit fuel, so it reduces inside the
kernel; `b + 1` steps always suffice. -/
def gcdF : Nat → Nat → Nat → Nat
  | 0, a, _ => a
  | f + 1, a, b => if b = 0 then a else gcdF f b (a % b)

/-- Kernel-computable gcd. -/
def natGcd (a b : Nat) : Nat := gcdF (b + 1) a b

/-- Reduce a pair to lowest terms (identity on the degenerate 0/0). -/
def JSNum.norm (a : JSNum) : JSNum :=
  let g := natGcd a.n.natAbs a.d
  if g = 0 then a else ⟨a.n / g, a.d / g⟩

/-- Literal payloads a parser can place in a `Literal` AST node
(`number | string | boolean | null`). -/
inductive Prim where
  | num  (q : JSNum)
  | str  (s : String)
  | bool (b : Bool)
  | null
deriving DecidableEq

/-- Expressions, from `src/frontend/ast.ts` (the executable subset shared
by both interpreter drafts). -/
inductive Expr where
  | lit      (v : Prim)
  | variable (name : String)
  | assign   (name : String) (value : Expr)
  | binary   (left : Expr) (operator : String) (right : Expr)
  | unary    (operator : String) (right : Expr)
  | logical  (left : Expr) (operator : String) (right : Expr)
  | call     (callee : Expr) (args : List Expr)
  | grouping (expression : Expr)

/-- Statements, from `src/frontend/ast.ts`. -/
inductive Stmt where
  | varStmt        (name : String) (initializer : Option Expr)
  | functionStmt   (name : String) (params : List String) (body : List Stmt)
  | printStmt      (expression : Expr)
  | expressionStmt (expression : Expr)
  | returnStmt     (value : Option Expr)
  | ifStmt         (condition : Expr) (thenBranch : Stmt) (elseBranch : Option Stmt)
  | whileStmt      (condition : Expr) (body : Stmt)
  | forStmt        (initializer : Option Stmt) (condition : Option Expr)
                   (increment : Option Expr) (body : Stmt)
  | blockStmt      (statements : List Stmt)

/-- Runtime values (`type Value = any` in the source): the JavaScript
values the interpreter actually produces.  `nan` is the double NaN
(`typeof NaN === "number"`); `undef` is `undefined` (produced by
`GsFunction.call` on a non-function declaration and by draft 3's `evaluate`
on an unknown binary operator); `gsFun` is a `GsFunction` object holding
its declaration and the address of its captured closure environment;
`nativePrint` is the built-in `print` object installed by the interpreter
constructor. -/
inductive Value where
  | num  (q : JSNum)
  | nan
  | str  (s : String)
  | bool (b : Bool)
  | null
  | undef
  | gsFun (decl : Stmt) (closure : Nat)
  | nativePrint

/-- The three kinds of non-local transfer a statement/expression step can
raise: `RuntimeError` (the interpreter's own error class), a host
JavaScript error such as `TypeError` (anything that is *not* a
`RuntimeError`), and the `ReturnException` sentinel. -/
inductive Signal where
  | runtimeError (msg : String)
  | hostError    (msg : String)
  | ret          (v : Value)

/-- Outcome of a fuel-indexed step: a normal result, a thrown signal, or
fuel exhaustion (`timeout` abstracts non-termination; it propagates like a
thrown signal, so `finally` blocks still run on it). -/
inductive Res (α : Type) where
  | ok      (a : α)
  | thrown  (s : Signal)
  | timeout

/-- One `Environment` object: its `values` map (an association list in
declaration order, as `Map.set` preserves insertion order) and its
optional `enclosing` parent, stored as a store address. -/
structure EnvData where
  bindings : List (String × Value)
  parent   : Option Nat

/-- Interpreter state: the store of all allocated `Environment` objects
(address = list index; allocation appends), the mutable
`this.environment` pointer, and the `console.log` / `console.error`
output streams. -/
structure State where
  envs   : List EnvData
  cur    : Nat
  out    : List String
  errOut : List String

/-- `Map.set` on an association list: overwrite the first occurrence of
the key in place, else append. -/
def setBinding : List (String × Value) → String → Value → List (String × Value)
  | [], n, v => [(n, v)]
  | (k, w) :: t, n, v =>
      if k = n then (k, v) :: t else (k, w) :: setBinding t n v

/-- `Environment.define(name, value)` on the environment at address `a`:
unconditional insert/overwrite in that scope only. -/
def defineAt (s : State) (a : Nat) (n : String) (v : Value) : State :=
  match s.envs[a]? with
  | some e => { s with envs := s.envs.set a { e with bindings := setBinding e.bindings n v } }
  | none   => s

/-- Chain walk of `Environment.get`: search the scope at address `a`,
then the `enclosing` chain.  `none` models the thrown
`RuntimeError("Undefined variable '<name>'.")`.  The fuel argument only
bounds the walk; `envs.length` steps always suffice on stores whose
parent pointers decrease (every store the interpreter builds). -/
def getAux (envs : List EnvData) : Nat → Nat → String → Option Value
  | 0, _, _ => none
  | f + 1, a, n =>
      match envs[a]? with
      | none => none
      | some e =>
          match e.bindings.lookup n with
          | some v => some v
          | none =>
              match e.parent with
              | some p => getAux envs f p n
              | none => none

/-- `Environment.get(name)` starting from the current environment. -/
def envGet (s : State) (n : String) : Option Value :=
  getAux s.envs s.envs.length s.cur n

/-- Chain walk of `Environment.assign`: mutate the first scope in which
the name is already bound; `none` models the thrown
`RuntimeError("Undefined variable '<name>'.")`. -/
def assignAux (envs : List EnvData) : Nat → Nat → String → Value → Option (List EnvData)
  | 0, _, _, _ => none
  | f + 1, a, n, v =>
      match envs[a]? with
      | none => none
      | some e =>
          if (e.bindings.lookup n).isSome then
            some (envs.set a { e with bindings := setBinding e.bindings n v })
          else
            match e.parent with
            | some p => assignAux envs f p n v
            | none => none

/-- `Environment.assign(name, value)` starting from the current
environment. -/
def envAssign (s : State) (n : String) (v : Value) : Option State :=
  (assignAux s.envs s.envs.length s.cur n v).map fun es => { s with envs := es }

/-- `new Environment(parent)`: allocate a fresh child environment and
return its address. -/
def allocEnv (s : State) (parent : Nat) : State × Nat :=
  ({ s with envs := s.envs ++ [⟨[], some parent⟩] }, s.envs.length)

/-- Is the name bound (present, whatever its value) in the environment at
address `a`? -/
def boundAt (s : State) (a : Nat) (n : String) : Bool :=
  match s.envs[a]? with
  | some e => (e.bindings.lookup n).isSome
  | none => false

/-- A store is chain-well-formed when every parent pointer goes to a
strictly smaller address.  Allocation order guarantees this for every
store the interpreter constructs. -/
def ChainWF (envs : List EnvData) : Prop :=
  ∀ (i : Nat) (e : EnvData) (p : Nat), envs[i]? = some e → e.parent = some p → p < i

mutual

/-- Structural equality on expressions (used, through `stmtBeq`, to model
reference equality of `GsFunction` objects: two function values coincide
exactly when they hold the same declaration and the same captured
environment address, which identifies the creating `new GsFunction(...)`
site in any single run). -/
def exprBeq : Expr → Expr → Bool
  | .lit a, .lit b => decide (a = b)
  | .variable a, .variable b => a == b
  | .assign n v, .assign m w => n == m && exprBeq v w
  | .binary l o r, .binary l2 o2 r2 => exprBeq l l2 && o == o2 && exprBeq r r2
  | .unary o r, .unary o2 r2 => o == o2 && exprBeq r r2
  | .logical l o r, .logical l2 o2 r2 => exprBeq l l2 && o == o2 && exprBeq r r2
  | .call c as, .call c2 as2 => exprBeq c c2 && exprsBeq as as2
  | .grouping e, .grouping e2 => exprBeq e e2
  | _, _ => false

def exprsBeq : List Expr → List Expr → Bool
  | [], [] => true
  | x :: xs, y :: ys => exprBeq x y && exprsBeq xs ys
  | _, _ => false

end

/-- Structural equality on optional expressions. -/
def optExprBeq : Option Expr → Option Expr → Bool
  | none, none => true
  | some a, some b => exprBeq a b
  | _, _ => false

mutual

/-- Structural equality on statements. -/
def stmtBeq : Stmt → Stmt → Bool
  | .varStmt n i, .varStmt n2 i2 => n == n2 && optExprBeq i i2
  | .functionStmt n ps b, .functionStmt n2 ps2 b2 =>
      n == n2 && ps == ps2 && stmtsBeq b b2
  | .printStmt e, .printStmt e2 => exprBeq e e2
  | .expressionStmt e, .expressionStmt e2 => exprBeq e e2
  | .returnStmt v, .returnStmt v2 => optExprBeq v v2
  | .ifStmt c t e, .ifStmt c2 t2 e2 => exprBeq c c2 && stmtBeq t t2 && optStmtBeq e e2
  | .whileStmt c b, .whileStmt c2 b2 => exprBeq c c2 && stmtBeq b b2
  | .forStmt i c n b, .forStmt i2 c2 n2 b2 =>
      optStmtBeq i i2 && optExprBeq c c2 && optExprBeq n n2 && stmtBeq b b2
  | .blockStmt ss, .blockStmt ss2 => stmtsBeq ss ss2
  | _, _ => false

def stmtsBeq : List Stmt → List Stmt → Bool
  | [], [] => true
  | x :: xs, y :: ys => stmtBeq x y && stmtsBeq xs ys
  | _, _ => false

def optStmtBeq : Option Stmt → Option Stmt → Bool
  | none, none => true
  | some a, some b => stmtBeq a b
  | _, _ => false

end

/-- `this.declaration.name` as read by `GsFunction.toString`: the `name`
property of the declaration statement, or `undefined` rendered as text
when the statement kind has no such property. -/
def declName : Stmt → String
  | .varStmt n _ => n
  | .functionStmt n _ _ => n
  | _ => "undefined"

/-- Smallest exponent `k ≤ 40` with `den ∣ 10^k`, if any: the rationals
the interpreter can build from decimal literals by `+ - * /` on
divisions-free paths all have such denominators. -/
def decExp (den : ℕ) : Option ℕ :=
  (List.range 41).find? fun k => 10 ^ k % den = 0

/-- JavaScript number-to-string: exact on integers (`String(1) = "1"`);
a rational with a finite decimal expansion renders with a decimal point
and no trailing zeros (shortest form); any remaining rational renders as
`num/den` — an explicit abstraction of double formatting that no claim
depends on. -/
def jsnumToStr (a : JSNum) : String :=
  let q := a.norm
  if q.d = 1 then toString q.n
  else
    match decExp q.d with
    | some k =>
        let scaled : ℕ := q.n.natAbs * (10 ^ k / q.d)
        let ds := toString scaled
        let padded :=
          if ds.length ≤ k then String.mk (List.replicate (k + 1 - ds.length) '0') ++ ds
          else ds
        (if q.n < 0 then "-" else "")
          ++ (padded.take (padded.length - k)) ++ "." ++ (padded.drop (padded.length - k))
    | none => toString q.n ++ "/" ++ toString q.d

/-- Numeric value of a digit character. -/
def digitVal (c : Char) : Option ℕ :=
  if c.isDigit then some (c.toNat - 48) else none

/-- Digits to a natural number; `none` when empty or a non-digit occurs. -/
def digitsToNat (cs : List Char) : Option ℕ :=
  match cs with
  | [] => none
  | _ => cs.foldlM (fun acc c => (digitVal c).map fun d => acc * 10 + d) 0

/-- JavaScript `ToNumber` on a string: whitespace-trimmed; empty means 0;
otherwise an optionally signed `digits[.digits]` literal (the grammar the
lexer emits); anything else is NaN (`none`).  Hex/exponent forms are not
modelled — no claim exercises them. -/
def strToNum (s : String) : Option JSNum :=
  let t := s.trim
  if t = "" then some ⟨0, 1⟩
  else
    let (sign, cs) : Int × List Char :=
      match t.toList with
      | '-' :: rest => (-1, rest)
      | '+' :: rest => (1, rest)
      | cs => (1, cs)
    match cs.span Char.isDigit with
    | (intPart, []) => (digitsToNat intPart).map fun n => (⟨sign * n, 1⟩ : JSNum)
    | (intPart, '.' :: fracPart) =>
        if fracPart.all Char.isDigit then
          match digitsToNat intPart, digitsToNat fracPart with
          | some i, some fr =>
              some ⟨sign * (i * 10 ^ fracPart.length + fr), 10 ^ fracPart.length⟩
          | some i, none => if fracPart = [] then some ⟨sign * i, 1⟩ else none
          | none, some fr => some ⟨sign * fr, 10 ^ fracPart.length⟩
          | none, none => none
        else none
    | _ => none

/-- JavaScript `String(v)` / template-literal rendering of a Value
(`GsFunction.toString` gives the `<fn name>` tag). -/
def jsToString : Value → String
  | .num q => jsnumToStr q
  | .nan => "NaN"
  | .str s => s
  | .bool b => cond b "true" "false"
  | .null => "null"
  | .undef => "undefined"
  | .gsFun d _ => "<fn " ++ declName d ++ ">"
  | .nativePrint => "<native fn print>"

/-- `typeof v === "number"` (NaN is a number). -/
def isNumberT : Value → Bool
  | .num _ => true
  | .nan => true
  | _ => false

/-- `typeof v === "string"`. -/
def isStringT : Value → Bool
  | .str _ => true
  | _ => false

/-- `typeof v === "object" || typeof v === "function"` — the first callee
check of draft 2.  Note `typeof null === "object"`: a Null callee passes
this check. -/
def isObjOrFunT : Value → Bool
  | .null => true
  | .gsFun _ _ => true
  | .nativePrint => true
  | _ => false

/-- Reading `callee.call` and testing `typeof callee.call === "function"`:
on `null`/`undefined` the property read itself throws a host `TypeError`;
on primitives the (boxed) property is `undefined`, so the test is false;
on the interpreter's function objects it is true. -/
def callMemberIsFun : Value → Except Signal Bool
  | .null => .error (.hostError "TypeError: Cannot read properties of null (reading 'call')")
  | .undef => .error (.hostError "TypeError: Cannot read properties of undefined (reading 'call')")
  | .gsFun _ _ => .ok true
  | .nativePrint => .ok true
  | _ => .ok false

/-- `callee.arity()`: `GsFunction.arity` returns the parameter count of a
`FunctionStmt` declaration and 0 otherwise; the native `print` reports 1. -/
def arity : Value → Nat
  | .gsFun (.functionStmt _ ps _) _ => ps.length
  | .gsFun _ _ => 0
  | .nativePrint => 1
  | _ => 0

/-- Draft 2 `Interpreter.isTruthy` (env.ts lines 357-361): only
`null`/`undefined` are falsy, a boolean passes through, every other value
— including 0, NaN and the empty string — is truthy. -/
def isTruthy2 : Value → Bool
  | .null => false
  | .undef => false
  | .bool b => b
  | _ => true

/-- Draft 3 `Interpreter.isTruthy` (env.ts lines 577-579): the JavaScript
coercion `!!val`, under which 0, NaN and the empty string are falsy. -/
def isTruthy3 : Value → Bool
  | .null => false
  | .undef => false
  | .bool b => b
  | .num q => decide (q.n ≠ 0)
  | .nan => false
  | .str s => decide (s ≠ "")
  | _ => true

/-- Structural equality of runtime values (reference equality of function
objects abstracted as declaration + closure address, see `exprBeq`). -/
def valueBeq : Value → Value → Bool
  | .num a, .num b => jsnumEq a b
  | .nan, .nan => true
  | .str a, .str b => a == b
  | .bool a, .bool b => a == b
  | .null, .null => true
  | .undef, .undef => true
  | .gsFun d c, .gsFun d2 c2 => stmtBeq d d2 && c == c2
  | .nativePrint, .nativePrint => true
  | _, _ => false

/-- JavaScript strict equality `===`: no coercion, and `NaN !== NaN`. -/
def strictEq (a b : Value) : Bool :=
  match a, b with
  | .nan, _ => false
  | _, .nan => false
  | _, _ => valueBeq a b

/-- Draft 2 `Interpreter.isEqual` (env.ts lines 363-367): both `null` is
equal; `null` against anything else is not; otherwise `===`. -/
def isEqual2 (a b : Value) : Bool :=
  match a, b with
  | .null, .null => true
  | .null, _ => false
  | _, _ => strictEq a b

/-- JavaScript `ToPrimitive` on our values: objects fall back to their
`toString`; primitives are themselves. -/
def toPrim : Value → Value
  | .gsFun d _ => .str ("<fn " ++ declName d ++ ">")
  | .nativePrint => .str "<native fn print>"
  | v => v

/-- JavaScript `ToNumber` on a primitive (`none` is NaN). -/
def toNumber : Value → Option JSNum
  | .num q => some q
  | .nan => none
  | .bool b => some (cond b ⟨1, 1⟩ ⟨0, 1⟩)
  | .null => some ⟨0, 1⟩
  | .undef => none
  | .str s => strToNum s
  | _ => none

/-- Core of the JavaScript abstract relational comparison on primitives:
two strings compare lexicographically, otherwise both convert with
`ToNumber` and `none` (NaN involved) makes every comparison false. -/
def jsLtPrim (a b : Value) : Option Bool :=
  match a, b with
  | .str x, .str y => some (decide (x < y))
  | _, _ =>
      match toNumber a, toNumber b with
      | some x, some y => some (jsnumLt x y)
      | _, _ => none

/-- JavaScript `a < b`. -/
def jsLT (a b : Value) : Bool := (jsLtPrim (toPrim a) (toPrim b)).getD false

/-- JavaScript `a > b`. -/
def jsGT (a b : Value) : Bool := (jsLtPrim (toPrim b) (toPrim a)).getD false

/-- JavaScript `a <= b` (negated reverse comparison; NaN makes it false). -/
def jsLE (a b : Value) : Bool :=
  match jsLtPrim (toPrim b) (toPrim a) with
  | some t => !t
  | none => false

/-- JavaScript `a >= b`. -/
def jsGE (a b : Value) : Bool :=
  match jsLtPrim (toPrim a) (toPrim b) with
  | some t => !t
  | none => false

/-- Arithmetic on `typeof`-number values with NaN propagation. -/
def numAdd : Value → Value → Value
  | .num a, .num b => .num (jsAdd a b)
  | _, _ => .nan

/-- Subtraction with NaN propagation. -/
def numSub : Value → Value → Value
  | .num a, .num b => .num (jsSub a b)
  | _, _ => .nan

/-- Multiplication with NaN propagation. -/
def numMul : Value → Value → Value
  | .num a, .num b => .num (jsMul a b)
  | _, _ => .nan

/-- Division with NaN propagation (only reached after the interpreter's
`right === 0` division-by-zero check). -/
def numDiv : Value → Value → Value
  | .num a, .num b => .num (jsDiv a b)
  | _, _ => .nan

/-- The parameter-binding loop of `GsFunction.call`: define each
parameter name in the fresh environment at address `a`, reading `args[i]`
(which is `undefined` past the end of the argument list). -/
def bindParams : State → Nat → List String → List Value → State
  | s, _, [], _ => s
  | s, a, p :: ps, [] => bindParams (defineAt s a p .undef) a ps []
  | s, a, p :: ps, v :: vs => bindParams (defineAt s a p v) a ps vs

/-- The literal payload of a `Literal` node as a runtime value. -/
def primToValue : Prim → Value
  | .num q => .num q
  | .str s => .str s
  | .bool b => .bool b
  | .null => .null

/-- Unary minus of draft 3 (`-r` with no operand check): JavaScript
coerces with `ToNumber` and negates; NaN stays NaN. -/
def jsNeg (v : Value) : Value :=
  match toNumber (toPrim v) with
  | some q => .num (jsnumNeg q)
  | none => .nan

/-- `a > b` on two `typeof`-number operands (draft 2 compares only after
`checkNumberOperands`); any NaN operand compares false. -/
def numGT : Value → Value → Bool
  | .num a, .num b => jsnumLt b a
  | _, _ => false

/-- `a >= b` on two `typeof`-number operands. -/
def numGE : Value → Value → Bool
  | .num a, .num b => !(jsnumLt a b)
  | _, _ => false

/-- `a < b` on two `typeof`-number operands. -/
def numLT : Value → Value → Bool
  | .num a, .num b => jsnumLt a b
  | _, _ => false

/-- `a <= b` on two `typeof`-number operands. -/
def numLE : Value → Value → Bool
  | .num a, .num b => !(jsnumLt b a)
  | _, _ => false

/-- The thrown `checkNumberOperands` failure of draft 2:
`RuntimeError("Operands must be numbers for operator '<op>'.")`. -/
def numOperandsErr (op : String) : Res Value :=
  .thrown (.runtimeError ("Operands must be numbers for operator '" ++ op ++ "'."))

/-- Draft 2 binary-operator dispatch (env.ts lines 270-311), applied to
the two already-evaluated operand values. -/
def binResult2 (op : String) (lv rv : Value) : Res Value :=
  match op with
  | "+" =>
      if isNumberT lv && isNumberT rv then .ok (numAdd lv rv)
      else if isStringT lv || isStringT rv then
        .ok (.str (jsToString lv ++ jsToString rv))
      else .thrown (.runtimeError "Operands must be two numbers or one must be a string.")
  | "-" =>
      if isNumberT lv && isNumberT rv then .ok (numSub lv rv) else numOperandsErr op
  | "*" =>
      if isNumberT lv && isNumberT rv then .ok (numMul lv rv) else numOperandsErr op
  | "/" =>
      if isNumberT lv && isNumberT rv then
        match rv with
        | .num q => if q.n = 0 then .thrown (.runtimeError "Division by zero.") else .ok (numDiv lv rv)
        | _ => .ok (numDiv lv rv)
      else numOperandsErr op
  | ">" =>
      if isNumberT lv && isNumberT rv then .ok (.bool (numGT lv rv)) else numOperandsErr op
  | ">=" =>
      if isNumberT lv && isNumberT rv then .ok (.bool (numGE lv rv)) else numOperandsErr op
  | "<" =>
      if isNumberT lv && isNumberT rv then .ok (.bool (numLT lv rv)) else numOperandsErr op
  | "<=" =>
      if isNumberT lv && isNumberT rv then .ok (.bool (numLE lv rv)) else numOperandsErr op
  | "==" => .ok (.bool (isEqual2 lv rv))
  | "!=" => .ok (.bool (!(isEqual2 lv rv)))
  | _ => .thrown (.runtimeError ("Unknown binary operator: " ++ op))

/-- Draft 3 binary-operator dispatch (env.ts lines 550-564): `+` falls
back to string concatenation with *no* error case, comparisons apply raw
JavaScript relational semantics with *no* operand check, equality is
strict `===`, and an unknown operator falls off the `switch` so
`evaluate` returns `undefined`. -/
def binResult3 (op : String) (lv rv : Value) : Res Value :=
  match op with
  | "+" =>
      if isNumberT lv && isNumberT rv then .ok (numAdd lv rv)
      else .ok (.str (jsToString lv ++ jsToString rv))
  | "-" =>
      if !(isNumberT lv) then .thrown (.runtimeError "Expected number")
      else if !(isNumberT rv) then .thrown (.runtimeError "Expected number")
      else .ok (numSub lv rv)
  | "*" =>
      if !(isNumberT lv) then .thrown (.runtimeError "Expected number")
      else if !(isNumberT rv) then .thrown (.runtimeError "Expected number")
      else .ok (numMul lv rv)
  | "/" =>
      if !(isNumberT lv) then .thrown (.runtimeError "Expected number")
      else if !(isNumberT rv) then .thrown (.runtimeError "Expected number")
      else
        match rv with
        | .num q => if q.n = 0 then .thrown (.runtimeError "Div by 0") else .ok (numDiv lv rv)
        | _ => .ok (numDiv lv rv)
  | ">" => .ok (.bool (jsGT lv rv))
  | ">=" => .ok (.bool (jsGE lv rv))
  | "<" => .ok (.bool (jsLT lv rv))
  | "<=" => .ok (.bool (jsLE lv rv))
  | "==" => .ok (.bool (strictEq lv rv))
  | "!=" => .ok (.bool (!(strictEq lv rv)))
  | _ => .ok .undef

mutual

/-- Draft 2 `Interpreter.execute` (env.ts lines 172-235), fuel-indexed.
Fuel 0 is `timeout`; every recursive step consumes one unit. -/
def exec2 : Nat → Stmt → State → Res Unit × State
  | 0, _, s => (.timeout, s)
  | f + 1, st, s =>
      match st with
      | .varStmt name init =>
          match init with
          | some e =>
              match eval2 f e s with
              | (.ok v, s₁) => (.ok (), defineAt s₁ s₁.cur name v)
              | (.thrown sig, s₁) => (.thrown sig, s₁)
              | (.timeout, s₁) => (.timeout, s₁)
          | none => (.ok (), defineAt s s.cur name .null)
      | .functionStmt name ps body =>
          (.ok (), defineAt s s.cur name (.gsFun (.functionStmt name ps body) s.cur))
      | .expressionStmt e =>
          match eval2 f e s with
          | (.ok _, s₁) => (.ok (), s₁)
          | (.thrown sig, s₁) => (.thrown sig, s₁)
          | (.timeout, s₁) => (.timeout, s₁)
      | .printStmt e =>
          match eval2 f e s with
          | (.ok v, s₁) => (.ok (), { s₁ with out := s₁.out ++ [jsToString v] })
          | (.thrown sig, s₁) => (.thrown sig, s₁)
          | (.timeout, s₁) => (.timeout, s₁)
      | .returnStmt val =>
          match val with
          | some e =>
              match eval2 f e s with
              | (.ok v, s₁) => (.thrown (.ret v), s₁)
              | (.thrown sig, s₁) => (.thrown sig, s₁)
              | (.timeout, s₁) => (.timeout, s₁)
          | none => (.thrown (.ret .null), s)
      | .ifStmt c t els =>
          match eval2 f c s with
          | (.ok v, s₁) =>
              if isTruthy2 v then exec2 f t s₁
              else
                match els with
                | some e => exec2 f e s₁
                | none => (.ok (), s₁)
          | (.thrown sig, s₁) => (.thrown sig, s₁)
          | (.timeout, s₁) => (.timeout, s₁)
      | .whileStmt c b => whileLoop2 f c b s
      | .forStmt _ _ _ _ =>
          (.thrown (.runtimeError "Unknown statement kind: ForStmt"), s)
      | .blockStmt ss =>
          let (s₁, a) := allocEnv s s.cur
          execBlock2 f ss a s₁

/-- The `while` loop of draft 2's `WhileStmt` case; one fuel unit per
iteration. -/
def whileLoop2 : Nat → Expr → Stmt → State → Res Unit × State
  | 0, _, _, s => (.timeout, s)
  | f + 1, c, b, s =>
      match eval2 f c s with
      | (.ok v, s₁) =>
          if isTruthy2 v then
            match exec2 f b s₁ with
            | (.ok _, s₂) => whileLoop2 f c b s₂
            | (.thrown sig, s₂) => (.thrown sig, s₂)
            | (.timeout, s₂) => (.timeout, s₂)
          else (.ok (), s₁)
      | (.thrown sig, s₁) => (.thrown sig, s₁)
      | (.timeout, s₁) => (.timeout, s₁)

/-- Sequential execution of a statement list (the loop bodies of
`interpret` and `executeBlock`): stops at the first abnormal outcome. -/
def execList2 : Nat → List Stmt → State → Res Unit × State
  | 0, _, s => (.timeout, s)
  | _ + 1, [], s => (.ok (), s)
  | f + 1, st :: rest, s =>
      match exec2 f st s with
      | (.ok _, s₁) => execList2 f rest s₁
      | (.thrown sig, s₁) => (.thrown sig, s₁)
      | (.timeout, s₁) => (.timeout, s₁)

/-- Draft 2 `Interpreter.executeBlock` (env.ts lines 237-247): save the
current environment pointer, switch to the given environment, run the
statements, and restore the saved pointer in a `finally` — on every
outcome, abnormal ones included. -/
def execBlock2 : Nat → List Stmt → Nat → State → Res Unit × State
  | 0, _, _, s => (.timeout, s)
  | f + 1, ss, e, s =>
      let r := execList2 f ss { s with cur := e }
      (r.1, { r.2 with cur := s.cur })

/-- Draft 2 `Interpreter.evaluate` (env.ts lines 249-355). -/
def eval2 : Nat → Expr → State → Res Value × State
  | 0, _, s => (.timeout, s)
  | f + 1, e, s =>
      match e with
      | .lit p => (.ok (primToValue p), s)
      | .grouping inner => eval2 f inner s
      | .unary op r =>
          match eval2 f r s with
          | (.ok v, s₁) =>
              match op with
              | "-" =>
                  match v with
                  | .num q => (.ok (.num (jsnumNeg q)), s₁)
                  | .nan => (.ok .nan, s₁)
                  | _ => (.thrown (.runtimeError ("Operand must be a number for operator '" ++ op ++ "'.")), s₁)
              | "!" => (.ok (.bool (!(isTruthy2 v))), s₁)
              | _ => (.thrown (.runtimeError ("Unknown unary operator: " ++ op)), s₁)
          | (.thrown sig, s₁) => (.thrown sig, s₁)
          | (.timeout, s₁) => (.timeout, s₁)
      | .binary l op r =>
          match eval2 f l s with
          | (.ok lv, s₁) =>
              match eval2 f r s₁ with
              | (.ok rv, s₂) => (binResult2 op lv rv, s₂)
              | (.thrown sig, s₂) => (.thrown sig, s₂)
              | (.timeout, s₂) => (.timeout, s₂)
          | (.thrown sig, s₁) => (.thrown sig, s₁)
          | (.timeout, s₁) => (.timeout, s₁)
      | .logical l op r =>
          match eval2 f l s with
          | (.ok lv, s₁) =>
              match op with
              | "or" => if isTruthy2 lv then (.ok lv, s₁) else eval2 f r s₁
              | "and" => if !(isTruthy2 lv) then (.ok lv, s₁) else eval2 f r s₁
              | _ => (.thrown (.runtimeError ("Unknown logical operator: " ++ op)), s₁)
          | (.thrown sig, s₁) => (.thrown sig, s₁)
          | (.timeout, s₁) => (.timeout, s₁)
      | .variable n =>
          match envGet s n with
          | some v => (.ok v, s)
          | none => (.thrown (.runtimeError ("Undefined variable '" ++ n ++ "'.")), s)
      | .assign n ve =>
          match eval2 f ve s with
          | (.ok v, s₁) =>
              match envAssign s₁ n v with
              | some s₂ => (.ok v, s₂)
              | none => (.thrown (.runtimeError ("Undefined variable '" ++ n ++ "'.")), s₁)
          | (.thrown sig, s₁) => (.thrown sig, s₁)
          | (.timeout, s₁) => (.timeout, s₁)
      | .call ce argEs =>
          match eval2 f ce s with
          | (.ok callee, s₁) =>
              if !(isObjOrFunT callee) then
                (.thrown (.runtimeError "Can only call functions."), s₁)
              else
                match evalArgs2 f argEs s₁ with
                | (.ok args, s₂) =>
                    match callMemberIsFun callee with
                    | .error sig => (.thrown sig, s₂)
                    | .ok false => (.thrown (.runtimeError "Can only call functions."), s₂)
                    | .ok true =>
                        if args.length ≠ arity callee then
                          (.thrown (.runtimeError ("Expected " ++ toString (arity callee)
                            ++ " arguments but got " ++ toString args.length ++ ".")), s₂)
                        else callFn2 f callee args s₂
                | (.thrown sig, s₂) => (.thrown sig, s₂)
                | (.timeout, s₂) => (.timeout, s₂)
          | (.thrown sig, s₁) => (.thrown sig, s₁)
          | (.timeout, s₁) => (.timeout, s₁)

/-- Left-to-right evaluation of `expr.args.map(arg => evaluate(arg))`. -/
def evalArgs2 : Nat → List Expr → State → Res (List Value) × State
  | 0, _, s => (.timeout, s)
  | _ + 1, [], s => (.ok [], s)
  | f + 1, e :: es, s =>
      match eval2 f e s with
      | (.ok v, s₁) =>
          match evalArgs2 f es s₁ with
          | (.ok vs, s₂) => (.ok (v :: vs), s₂)
          | (.thrown sig, s₂) => (.thrown sig, s₂)
          | (.timeout, s₂) => (.timeout, s₂)
      | (.thrown sig, s₁) => (.thrown sig, s₁)
      | (.timeout, s₁) => (.timeout, s₁)

/-- `callee.call(this, args)` as dispatched by draft 2: the native
`print` logs its first argument; `GsFunction.call` (env.ts lines 114-132)
allocates one fresh environment whose parent is the captured closure,
binds the parameters, runs the body through `executeBlock`, converts a
caught `ReturnException` into the call's result and otherwise yields
`null` (or returns `undefined` without running anything when the stored
declaration is not a `FunctionStmt`). -/
def callFn2 : Nat → Value → List Value → State → Res Value × State
  | 0, _, _, s => (.timeout, s)
  | f + 1, callee, args, s =>
      match callee with
      | .nativePrint => (.ok .null, { s with out := s.out ++ [jsToString (args.headD .undef)] })
      | .gsFun decl closure =>
          match decl with
          | .functionStmt _ ps body =>
              let (s₁, a) := allocEnv s closure
              let s₂ := bindParams s₁ a ps args
              match execBlock2 f body a s₂ with
              | (.thrown (.ret v), s₃) => (.ok v, s₃)
              | (.thrown sig, s₃) => (.thrown sig, s₃)
              | (.ok _, s₃) => (.ok .null, s₃)
              | (.timeout, s₃) => (.timeout, s₃)
          | _ => (.ok .undef, s)
      | _ => (.ok .undef, s)

end

mutual

/-- Draft 3 `Interpreter.execute` (env.ts lines 496-531).  The `IfStmt`
case is the ternary
`this.execute(isTruthy(evaluate(cond)) ? thenBranch : elseBranch)`:
with a falsy condition and no else branch it calls `execute(undefined)`,
whose `switch (stmt.kind)` dereference throws a host `TypeError`.  The
`ForStmt` case executes the initializer directly in the current
environment — no child environment is created. -/
def exec3 : Nat → Stmt → State → Res Unit × State
  | 0, _, s => (.timeout, s)
  | f + 1, st, s =>
      match st with
      | .varStmt name init =>
          match init with
          | some e =>
              match eval3 f e s with
              | (.ok v, s₁) => (.ok (), defineAt s₁ s₁.cur name v)
              | (.thrown sig, s₁) => (.thrown sig, s₁)
              | (.timeout, s₁) => (.timeout, s₁)
          | none => (.ok (), defineAt s s.cur name .null)
      | .functionStmt name ps body =>
          (.ok (), defineAt s s.cur name (.gsFun (.functionStmt name ps body) s.cur))
      | .expressionStmt e =>
          match eval3 f e s with
          | (.ok _, s₁) => (.ok (), s₁)
          | (.thrown sig, s₁) => (.thrown sig, s₁)
          | (.timeout, s₁) => (.timeout, s₁)
      | .printStmt e =>
          match eval3 f e s with
          | (.ok v, s₁) => (.ok (), { s₁ with out := s₁.out ++ [jsToString v] })
          | (.thrown sig, s₁) => (.thrown sig, s₁)
          | (.timeout, s₁) => (.timeout, s₁)
      | .returnStmt val =>
          match val with
          | some e =>
              match eval3 f e s with
              | (.ok v, s₁) => (.thrown (.ret v), s₁)
              | (.thrown sig, s₁) => (.thrown sig, s₁)
              | (.timeout, s₁) => (.timeout, s₁)
          | none => (.thrown (.ret .null), s)
      | .ifStmt c t els =>
          match eval3 f c s with
          | (.ok v, s₁) =>
              if isTruthy3 v then exec3 f t s₁
              else
                match els with
                | some e => exec3 f e s₁
                | none =>
                    (.thrown (.hostError "TypeError: Cannot read properties of undefined (reading 'kind')"), s₁)
          | (.thrown sig, s₁) => (.thrown sig, s₁)
          | (.timeout, s₁) => (.timeout, s₁)
      | .whileStmt c b => whileLoop3 f c b s
      | .forStmt init cond inc body =>
          match init with
          | some i =>
              match exec3 f i s with
              | (.ok _, s₁) => forLoop3 f cond inc body s₁
              | (.thrown sig, s₁) => (.thrown sig, s₁)
              | (.timeout, s₁) => (.timeout, s₁)
          | none => forLoop3 f cond inc body s
      | .blockStmt ss =>
          let (s₁, a) := allocEnv s s.cur
          execBlock3 f ss a s₁

/-- The `while` loop of draft 3's `WhileStmt` case. -/
def whileLoop3 : Nat → Expr → Stmt → State → Res Unit × State
  | 0, _, _, s => (.timeout, s)
  | f + 1, c, b, s =>
      match eval3 f c s with
      | (.ok v, s₁) =>
          if isTruthy3 v then
            match exec3 f b s₁ with
            | (.ok _, s₂) => whileLoop3 f c b s₂
            | (.thrown sig, s₂) => (.thrown sig, s₂)
            | (.timeout, s₂) => (.timeout, s₂)
          else (.ok (), s₁)
      | (.thrown sig, s₁) => (.thrown sig, s₁)
      | (.timeout, s₁) => (.timeout, s₁)

/-- Condition test of draft 3's direct `ForStmt` loop:
`while (!stmt.condition || isTruthy(evaluate(stmt.condition)))` — a
missing condition is unconditionally true. -/
def forLoop3 : Nat → Option Expr → Option Expr → Stmt → State → Res Unit × State
  | 0, _, _, _, s => (.timeout, s)
  | f + 1, cond, inc, body, s =>
      match cond with
      | none => forIter3 f cond inc body s
      | some c =>
          match eval3 f c s with
          | (.ok v, s₁) =>
              if isTruthy3 v then forIter3 f cond inc body s₁ else (.ok (), s₁)
          | (.thrown sig, s₁) => (.thrown sig, s₁)
          | (.timeout, s₁) => (.timeout, s₁)

/-- One iteration of draft 3's direct `ForStmt` loop: run the body, then
evaluate the increment (result discarded), then loop. -/
def forIter3 : Nat → Option Expr → Option Expr → Stmt → State → Res Unit × State
  | 0, _, _, _, s => (.timeout, s)
  | f + 1, cond, inc, body, s =>
      match exec3 f body s with
      | (.ok _, s₁) =>
          match inc with
          | some ie =>
              match eval3 f ie s₁ with
              | (.ok _, s₂) => forLoop3 f cond inc body s₂
              | (.thrown sig, s₂) => (.thrown sig, s₂)
              | (.timeout, s₂) => (.timeout, s₂)
          | none => forLoop3 f cond inc body s₁
      | (.thrown sig, s₁) => (.thrown sig, s₁)
      | (.timeout, s₁) => (.timeout, s₁)

/-- Sequential execution of a statement list by draft 3. -/
def execList3 : Nat → List Stmt → State → Res Unit × State
  | 0, _, s => (.timeout, s)
  | _ + 1, [], s => (.ok (), s)
  | f + 1, st :: rest, s =>
      match exec3 f st s with
      | (.ok _, s₁) => execList3 f rest s₁
      | (.thrown sig, s₁) => (.thrown sig, s₁)
      | (.timeout, s₁) => (.timeout, s₁)

/-- Draft 3 `Interpreter.executeBlock` (env.ts lines 533-541): identical
save/switch/run/`finally`-restore discipline to draft 2. -/
def execBlock3 : Nat → List Stmt → Nat → State → Res Unit × State
  | 0, _, _, s => (.timeout, s)
  | f + 1, ss, e, s =>
      let r := execList3 f ss { s with cur := e }
      (r.1, { r.2 with cur := s.cur })

/-- Draft 3 `Interpreter.evaluate` (env.ts lines 543-575).  Unary applies
`-` with JavaScript coercion (no operand check) and treats any other
operator as `!`; the callee check reads `callee.call` *before* the
arguments are evaluated. -/
def eval3 : Nat → Expr → State → Res Value × State
  | 0, _, s => (.timeout, s)
  | f + 1, e, s =>
      match e with
      | .lit p => (.ok (primToValue p), s)
      | .variable n =>
          match envGet s n with
          | some v => (.ok v, s)
          | none => (.thrown (.runtimeError ("Undefined variable '" ++ n ++ "'.")), s)
      | .assign n ve =>
          match eval3 f ve s with
          | (.ok v, s₁) =>
              match envAssign s₁ n v with
              | some s₂ => (.ok v, s₂)
              | none => (.thrown (.runtimeError ("Undefined variable '" ++ n ++ "'.")), s₁)
          | (.thrown sig, s₁) => (.thrown sig, s₁)
          | (.timeout, s₁) => (.timeout, s₁)
      | .grouping inner => eval3 f inner s
      | .unary op r =>
          match eval3 f r s with
          | (.ok v, s₁) =>
              if op = "-" then (.ok (jsNeg v), s₁)
              else (.ok (.bool (!(isTruthy3 v))), s₁)
          | (.thrown sig, s₁) => (.thrown sig, s₁)
          | (.timeout, s₁) => (.timeout, s₁)
      | .binary l op r =>
          match eval3 f l s with
          | (.ok lv, s₁) =>
              match eval3 f r s₁ with
              | (.ok rv, s₂) => (binResult3 op lv rv, s₂)
              | (.thrown sig, s₂) => (.thrown sig, s₂)
              | (.timeout, s₂) => (.timeout, s₂)
          | (.thrown sig, s₁) => (.thrown sig, s₁)
          | (.timeout, s₁) => (.timeout, s₁)
      | .logical l op r =>
          match eval3 f l s with
          | (.ok lv, s₁) =>
              if op = "or" then
                if isTruthy3 lv then (.ok lv, s₁) else eval3 f r s₁
              else
                if !(isTruthy3 lv) then (.ok lv, s₁) else eval3 f r s₁
          | (.thrown sig, s₁) => (.thrown sig, s₁)
          | (.timeout, s₁) => (.timeout, s₁)
      | .call ce argEs =>
          match eval3 f ce s with
          | (.ok callee, s₁) =>
              match callMemberIsFun callee with
              | .error sig => (.thrown sig, s₁)
              | .ok false => (.thrown (.runtimeError "Only functions callable."), s₁)
              | .ok true =>
                  match evalArgs3 f argEs s₁ with
                  | (.ok args, s₂) =>
                      if args.length ≠ arity callee then
                        (.thrown (.runtimeError ("Expected " ++ toString (arity callee)
                          ++ " args, got " ++ toString args.length)), s₂)
                      else callFn3 f callee args s₂
                  | (.thrown sig, s₂) => (.thrown sig, s₂)
                  | (.timeout, s₂) => (.timeout, s₂)
          | (.thrown sig, s₁) => (.thrown sig, s₁)
          | (.timeout, s₁) => (.timeout, s₁)

/-- Left-to-right evaluation of the argument list by draft 3. -/
def evalArgs3 : Nat → List Expr → State → Res (List Value) × State
  | 0, _, s => (.timeout, s)
  | _ + 1, [], s => (.ok [], s)
  | f + 1, e :: es, s =>
      match eval3 f e s with
      | (.ok v, s₁) =>
          match evalArgs3 f es s₁ with
          | (.ok vs, s₂) => (.ok (v :: vs), s₂)
          | (.thrown sig, s₂) => (.thrown sig, s₂)
          | (.timeout, s₂) => (.timeout, s₂)
      | (.thrown sig, s₁) => (.thrown sig, s₁)
      | (.timeout, s₁) => (.timeout, s₁)

/-- `callee.call(this, args)` as dispatched by draft 3 (`GsFunction` of
env.ts lines 447-460 — identical mechanics to draft 2). -/
def callFn3 : Nat → Value → List Value → State → Res Value × State
  | 0, _, _, s => (.timeout, s)
  | f + 1, callee, args, s =>
      match callee with
      | .nativePrint => (.ok .null, { s with out := s.out ++ [jsToString (args.headD .undef)] })
      | .gsFun decl closure =>
          match decl with
          | .functionStmt _ ps body =>
              let (s₁, a) := allocEnv s closure
              let s₂ := bindParams s₁ a ps args
              match execBlock3 f body a s₂ with
              | (.thrown (.ret v), s₃) => (.ok v, s₃)
              | (.thrown sig, s₃) => (.thrown sig, s₃)
              | (.ok _, s₃) => (.ok .null, s₃)
              | (.timeout, s₃) => (.timeout, s₃)
          | _ => (.ok .undef, s)
      | _ => (.ok .undef, s)

end

/-- Outcome of a whole `Interpreter.interpret` run: normal completion; a
`RuntimeError` caught by the top-level `catch` and reported through
`console.error`; any other throwable rethrown past the catch (escaping
the interpreter); or fuel exhaustion. -/
inductive InterpResult where
  | normal
  | reported (msg : String)
  | escaped  (sig : Signal)
  | timeout

/-- Draft 2 `Interpreter.interpret` (env.ts lines 158-170): run the
top-level statements; catch a `RuntimeError` and log
`Runtime error: <msg>` to `console.error`; rethrow anything else. -/
def interpret2 (f : Nat) (stmts : List Stmt) (s : State) : InterpResult × State :=
  match execList2 f stmts s with
  | (.ok _, s₁) => (.normal, s₁)
  | (.thrown (.runtimeError m), s₁) =>
      (.reported m, { s₁ with errOut := s₁.errOut ++ ["Runtime error: " ++ m] })
  | (.thrown sig, s₁) => (.escaped sig, s₁)
  | (.timeout, s₁) => (.timeout, s₁)

/-- Draft 3 `Interpreter.interpret` (env.ts lines 485-494): identical
catch discipline to draft 2. -/
def interpret3 (f : Nat) (stmts : List Stmt) (s : State) : InterpResult × State :=
  match execList3 f stmts s with
  | (.ok _, s₁) => (.normal, s₁)
  | (.thrown (.runtimeError m), s₁) =>
      (.reported m, { s₁ with errOut := s₁.errOut ++ ["Runtime error: " ++ m] })
  | (.thrown sig, s₁) => (.escaped sig, s₁)
  | (.timeout, s₁) => (.timeout, s₁)

/-- The state the `Interpreter` constructor produces: one global
environment holding the native `print`, and that environment current. -/
def initState : State :=
  { envs := [⟨[("print", .nativePrint)], none⟩], cur := 0, out := [], errOut := [] }

/-- `Parser.forStatement`'s desugaring (src/unnamed/part_001 lines
196-224), applied to the parsed clauses: wrap the initializer (or a
`null`-literal expression statement) and a `while` loop in a fresh
`BlockStmt`; a missing condition becomes the literal `true`; an increment
is appended to the body inside a further block. -/
def forDesugar (initializer : Option Stmt) (condition : Option Expr)
    (increment : Option Expr) (body : Stmt) : Stmt :=
  match increment with
  | some inc =>
      .blockStmt
        [initializer.getD (.expressionStmt (.lit .null)),
         .whileStmt (condition.getD (.lit (.bool true)))
           (.blockStmt [body, .expressionStmt inc])]
  | none =>
      .blockStmt
        [initializer.getD (.expressionStmt (.lit .null)),
         .whileStmt (condition.getD (.lit (.bool true))) body]

/-- The four coercive relational comparisons of draft 3's `switch`
(env.ts lines 557-560), keyed by operator text. -/
def jsRelational (op : String) (a b : Value) : Bool :=
  match op with
  | ">" => jsGT a b
  | ">=" => jsGE a b
  | "<" => jsLT a b
  | "<=" => jsLE a b
  | _ => false

/-- The address chain `a`, `enclosing a`, ... walked by `get`/`assign`,
cut off by the fuel bound. -/
def envChain (envs : List EnvData) : Nat → Nat → List Nat
  | 0, _ => []
  | f + 1, a =>
      a :: (match envs[a]? with
            | some e =>
                match e.parent with
                | some p => envChain envs f p
                | none => []
            | none => [])

/-- The first (innermost) address in the given chain whose scope binds
the name. -/
def firstBoundIn (envs : List EnvData) (n : String) : List Nat → Option Nat
  | [] => none
  | a :: rest =>
      match envs[a]? with
      | some e => if (e.bindings.lookup n).isSome then some a else firstBoundIn envs n rest
      | none => firstBoundIn envs n rest

/-- Evolution invariant of one interpreter step: the current-environment
pointer is restored, the store only grows, and a binding present in any
scope stays present (no interpreter operation deletes a binding). -/
def Preserves (s t : State) : Prop :=
  t.cur = s.cur ∧ s.envs.length ≤ t.envs.length ∧
    ∀ a n, boundAt s a n = true → boundAt t a n = true

/-- Executable form of `ChainWF` (decidable, so concrete stores can be
checked by `decide`). -/
def chainWFb (envs : List EnvData) : Bool :=
  (List.range envs.length).all fun i =>
    match envs[i]? with
    | some e =>
        match e.parent with
        | some p => decide (p < i)
        | none => true
    | none => true

theorem setBinding_lookup_self (l : List (String × Value)) (n : String) (v : Value) :
    (setBinding l n v).lookup n = some v := by
  induction l with
  | nil => simp [setBinding]
  | cons h t ih =>
      obtain ⟨k, w⟩ := h
      by_cases hk : k = n
      · subst hk; simp [setBinding]
      · have hnk : (n == k) = false := beq_eq_false_iff_ne.mpr (Ne.symm hk)
        simp [setBinding, hk, List.lookup, hnk, ih]

theorem setBinding_lookup_ne (l : List (String × Value)) (n : String) (v : Value)
    (m : String) (h : m ≠ n) : (setBinding l n v).lookup m = l.lookup m := by
  have hmn : (m == n) = false := beq_eq_false_iff_ne.mpr h
  induction l with
  | nil => simp [setBinding, List.lookup, hmn]
  | cons hd t ih =>
      obtain ⟨k, w⟩ := hd
      by_cases hk : k = n
      · subst hk; simp [setBinding, List.lookup, hmn]
      · simp [setBinding, hk, List.lookup, ih]

theorem setBinding_lookup_isSome (l : List (String × Value)) (n : String) (v : Value)
    (m : String) (h : (l.lookup m).isSome) : ((setBinding l n v).lookup m).isSome := by
  by_cases hm : m = n
  · subst hm; simp [setBinding_lookup_self]
  · rw [setBinding_lookup_ne l n v m hm]; exact h

theorem preserves_refl (s : State) : Preserves s s :=
  ⟨rfl, le_refl _, fun _ _ h => h⟩

theorem preserves_trans {s t u : State} (h1 : Preserves s t) (h2 : Preserves t u) :
    Preserves s u :=
  ⟨h2.1.trans h1.1, h1.2.1.trans h2.2.1, fun a n hb => h2.2.2 a n (h1.2.2 a n hb)⟩

theorem getAppendLeft {α : Type} (l m : List α) (i : Nat) (h : i < l.length) :
    (l ++ m)[i]? = l[i]? := by
  rw [List.getElem?_append]
  exact if_pos h

theorem defineAt_preserves (s : State) (a : Nat) (n : String) (v : Value) :
    Preserves s (defineAt s a n v) := by
  unfold defineAt
  cases he : s.envs[a]? with
  | none => exact preserves_refl s
  | some e =>
      obtain ⟨ha, -⟩ := List.getElem?_eq_some.mp he
      refine ⟨rfl, by simp, ?_⟩
      intro b m hb
      unfold boundAt at hb ⊢
      by_cases hab : b = a
      · subst hab
        rw [he] at hb
        simp only [List.getElem?_set_eq_of_lt _ ha]
        exact setBinding_lookup_isSome _ _ _ _ hb
      · simp only [List.getElem?_set_ne (Ne.symm hab)]
        exact hb

theorem alloc_preserves (s : State) (x : EnvData) :
    Preserves s { s with envs := s.envs ++ [x] } := by
  refine ⟨rfl, by simp, ?_⟩
  intro b m hb
  unfold boundAt at hb ⊢
  cases he : s.envs[b]? with
  | none => rw [he] at hb; exact absurd hb (by simp)
  | some e =>
      obtain ⟨hblt, -⟩ := List.getElem?_eq_some.mp he
      simp only [getAppendLeft _ _ _ hblt, he]
      rw [he] at hb
      exact hb

theorem assignAux_sound (envs : List EnvData) :
    ∀ (f a : Nat) (n : String) (v : Value) (es' : List EnvData),
      assignAux envs f a n v = some es' →
      es'.length = envs.length ∧
        ∀ (b : Nat) (e : EnvData), envs[b]? = some e →
          ∃ e' : EnvData, es'[b]? = some e' ∧ e'.parent = e.parent ∧
            ∀ m : String, (e.bindings.lookup m).isSome → (e'.bindings.lookup m).isSome := by
  intro f
  induction f with
  | zero => intro a n v es' h; simp [assignAux] at h
  | succ f ih =>
      intro a n v es' h
      unfold assignAux at h
      cases he : envs[a]? with
      | none => simp only [he] at h; exact Option.noConfusion h
      | some e =>
          simp only [he] at h
          obtain ⟨ha, -⟩ := List.getElem?_eq_some.mp he
          by_cases hl : (e.bindings.lookup n).isSome
          · rw [if_pos hl] at h
            obtain rfl : envs.set a { e with bindings := setBinding e.bindings n v } = es' :=
              Option.some_injective _ h
            refine ⟨by simp, ?_⟩
            intro b eb heb
            by_cases hab : b = a
            · subst hab
              rw [he] at heb
              obtain rfl : e = eb := Option.some_injective _ heb
              exact ⟨_, List.getElem?_set_eq_of_lt _ ha, rfl,
                fun m hm => setBinding_lookup_isSome _ _ _ _ hm⟩
            · exact ⟨eb, by simp only [List.getElem?_set_ne (Ne.symm hab)]; exact heb, rfl,
                fun m hm => hm⟩
          · rw [if_neg hl] at h
            cases hp : e.parent with
            | none => simp only [hp] at h; exact Option.noConfusion h
            | some p => simp only [hp] at h; exact ih p n v es' h

theorem envAssign_preserves (s : State) (n : String) (v : Value) (s' : State)
    (h : envAssign s n v = some s') : Preserves s s' := by
  unfold envAssign at h
  cases hx : assignAux s.envs s.envs.length s.cur n v with
  | none => rw [hx] at h; exact absurd h (by simp)
  | some es' =>
      rw [hx] at h
      obtain rfl : { s with envs := es' } = s' := Option.some_injective _ h
      obtain ⟨hlen, hmono⟩ := assignAux_sound s.envs _ _ n v es' hx
      refine ⟨rfl, le_of_eq hlen.symm, ?_⟩
      intro b m hb
      unfold boundAt at hb ⊢
      cases he : s.envs[b]? with
      | none => rw [he] at hb; exact absurd hb (by simp)
      | some e =>
          rw [he] at hb
          obtain ⟨e', he', -, hm⟩ := hmono b e he
          simp only [he']
          exact hm m hb

theorem preserves_out (s : State) (o : List String) :
    Preserves s { s with out := o } :=
  ⟨rfl, le_refl _, fun _ _ h => h⟩

theorem bindParams_preserves : ∀ (ps : List String) (args : List Value) (s : State) (a : Nat),
    Preserves s (bindParams s a ps args) := by
  intro ps
  induction ps with
  | nil =>
      intro args s a
      cases args <;> simp only [bindParams] <;> exact preserves_refl s
  | cons p ps ih =>
      intro args s a
      cases args with
      | nil =>
          simp only [bindParams]
          exact preserves_trans (defineAt_preserves s a p .undef) (ih [] _ a)
      | cons v vs =>
          simp only [bindParams]
          exact preserves_trans (defineAt_preserves s a p v) (ih vs _ a)

theorem preserves3 : ∀ f : Nat,
    (∀ (st : Stmt) (s : State), Preserves s (exec3 f st s).2) ∧
    (∀ (c : Expr) (b : Stmt) (s : State), Preserves s (whileLoop3 f c b s).2) ∧
    (∀ (c i : Option Expr) (b : Stmt) (s : State), Preserves s (forLoop3 f c i b s).2) ∧
    (∀ (c i : Option Expr) (b : Stmt) (s : State), Preserves s (forIter3 f c i b s).2) ∧
    (∀ (ss : List Stmt) (s : State), Preserves s (execList3 f ss s).2) ∧
    (∀ (ss : List Stmt) (a : Nat) (s : State), Preserves s (execBlock3 f ss a s).2) ∧
    (∀ (e : Expr) (s : State), Preserves s (eval3 f e s).2) ∧
    (∀ (es : List Expr) (s : State), Preserves s (evalArgs3 f es s).2) ∧
    (∀ (v : Value) (vs : List Value) (s : State), Preserves s (callFn3 f v vs s).2) := by
  intro f
  induction f with
  | zero =>
      refine ⟨?_, ?_, ?_, ?_, ?_, ?_, ?_, ?_, ?_⟩ <;> intros <;>
        simp only [exec3, whileLoop3, forLoop3, forIter3, execList3, execBlock3, eval3,
          evalArgs3, callFn3] <;> exact preserves_refl _
  | succ f ih =>
      obtain ⟨ihExec, ihWhile, ihForL, ihForI, ihList, ihBlock, ihEval, ihArgs, ihCall⟩ := ih
      refine ⟨?_, ?_, ?_, ?_, ?_, ?_, ?_, ?_, ?_⟩
      · intro st s
        cases st with
        | varStmt name init =>
            cases init with
            | none =>
                simp only [exec3]
                exact defineAt_preserves s s.cur name .null
            | some e =>
                rcases hev : eval3 f e s with ⟨r, s₁⟩
                have h1 : Preserves s s₁ := by have := ihEval e s; rwa [hev] at this
                cases r with
                | ok v =>
                    simp only [exec3, hev]
                    exact preserves_trans h1 (defineAt_preserves s₁ s₁.cur name v)
                | thrown sig => simp only [exec3, hev]; exact h1
                | timeout => simp only [exec3, hev]; exact h1
        | functionStmt name ps body =>
            simp only [exec3]
            exact defineAt_preserves s s.cur name _
        | expressionStmt e =>
            rcases hev : eval3 f e s with ⟨r, s₁⟩
            have h1 : Preserves s s₁ := by have := ihEval e s; rwa [hev] at this
            cases r with
            | ok v => simp only [exec3, hev]; exact h1
            | thrown sig => simp only [exec3, hev]; exact h1
            | timeout => simp only [exec3, hev]; exact h1
        | printStmt e =>
            rcases hev : eval3 f e s with ⟨r, s₁⟩
            have h1 : Preserves s s₁ := by have := ihEval e s; rwa [hev] at this
            cases r with
            | ok v =>
                simp only [exec3, hev]
                exact preserves_trans h1 (preserves_out s₁ _)
            | thrown sig => simp only [exec3, hev]; exact h1
            | timeout => simp only [exec3, hev]; exact h1
        | returnStmt val =>
            cases val with
            | none => simp only [exec3]; exact preserves_refl s
            | some e =>
                rcases hev : eval3 f e s with ⟨r, s₁⟩
                have h1 : Preserves s s₁ := by have := ihEval e s; rwa [hev] at this
                cases r with
                | ok v => simp only [exec3, hev]; exact h1
                | thrown sig => simp only [exec3, hev]; exact h1
                | timeout => simp only [exec3, hev]; exact h1
        | ifStmt c t els =>
            rcases hev : eval3 f c s with ⟨r, s₁⟩
            have h1 : Preserves s s₁ := by have := ihEval c s; rwa [hev] at this
            cases r with
            | ok v =>
                simp only [exec3, hev]
                by_cases ht : isTruthy3 v = true
                · rw [if_pos ht]
                  exact preserves_trans h1 (ihExec t s₁)
                · rw [if_neg ht]
                  cases els with
                  | some e2 => exact preserves_trans h1 (ihExec e2 s₁)
                  | none => exact h1
            | thrown sig => simp only [exec3, hev]; exact h1
            | timeout => simp only [exec3, hev]; exact h1
        | whileStmt c b =>
            simp only [exec3]
            exact ihWhile c b s
        | forStmt init cond inc body =>
            cases init with
            | none => simp only [exec3]; exact ihForL cond inc body s
            | some i =>
                rcases hex : exec3 f i s with ⟨r, s₁⟩
                have h1 : Preserves s s₁ := by have := ihExec i s; rwa [hex] at this
                cases r with
                | ok u =>
                    simp only [exec3, hex]
                    exact preserves_trans h1 (ihForL cond inc body s₁)
                | thrown sig => simp only [exec3, hex]; exact h1
                | timeout => simp only [exec3, hex]; exact h1
        | blockStmt ss =>
            simp only [exec3, allocEnv]
            exact preserves_trans (alloc_preserves s ⟨[], some s.cur⟩)
              (ihBlock ss s.envs.length { s with envs := s.envs ++ [⟨[], some s.cur⟩] })
      · intro c b s
        rcases hev : eval3 f c s with ⟨r, s₁⟩
        have h1 : Preserves s s₁ := by have := ihEval c s; rwa [hev] at this
        cases r with
        | ok v =>
            simp only [whileLoop3, hev]
            by_cases ht : isTruthy3 v = true
            · rw [if_pos ht]
              rcases hex : exec3 f b s₁ with ⟨r2, s₂⟩
              have h2 : Preserves s₁ s₂ := by have := ihExec b s₁; rwa [hex] at this
              cases r2 with
              | ok u => simp only [hex]; exact preserves_trans h1 (preserves_trans h2 (ihWhile c b s₂))
              | thrown sig => simp only [hex]; exact preserves_trans h1 h2
              | timeout => simp only [hex]; exact preserves_trans h1 h2
            · rw [if_neg ht]
              exact h1
        | thrown sig => simp only [whileLoop3, hev]; exact h1
        | timeout => simp only [whileLoop3, hev]; exact h1
      · intro c i b s
        cases c with
        | none => simp only [forLoop3]; exact ihForI none i b s
        | some ce =>
            rcases hev : eval3 f ce s with ⟨r, s₁⟩
            have h1 : Preserves s s₁ := by have := ihEval ce s; rwa [hev] at this
            cases r with
            | ok v =>
                simp only [forLoop3, hev]
                by_cases ht : isTruthy3 v = true
                · rw [if_pos ht]
                  exact preserves_trans h1 (ihForI (some ce) i b s₁)
                · rw [if_neg ht]
                  exact h1
            | thrown sig => simp only [forLoop3, hev]; exact h1
            | timeout => simp only [forLoop3, hev]; exact h1
      · intro c i b s
        rcases hex : exec3 f b s with ⟨r, s₁⟩
        have h1 : Preserves s s₁ := by have := ihExec b s; rwa [hex] at this
        cases r with
        | ok u =>
            cases i with
            | none =>
                simp only [forIter3, hex]
                exact preserves_trans h1 (ihForL c none b s₁)
            | some ie =>
                rcases hev : eval3 f ie s₁ with ⟨r2, s₂⟩
                have h2 : Preserves s₁ s₂ := by have := ihEval ie s₁; rwa [hev] at this
                cases r2 with
                | ok v =>
                    simp only [forIter3, hex, hev]
                    exact preserves_trans h1 (preserves_trans h2 (ihForL c (some ie) b s₂))
                | thrown sig => simp only [forIter3, hex, hev]; exact preserves_trans h1 h2
                | timeout => simp only [forIter3, hex, hev]; exact preserves_trans h1 h2
        | thrown sig => simp only [forIter3, hex]; exact h1
        | timeout => simp only [forIter3, hex]; exact h1
      · intro ss s
        cases ss with
        | nil => simp only [execList3]; exact preserves_refl s
        | cons st rest =>
            rcases hex : exec3 f st s with ⟨r, s₁⟩
            have h1 : Preserves s s₁ := by have := ihExec st s; rwa [hex] at this
            cases r with
            | ok u =>
                simp only [execList3, hex]
                exact preserves_trans h1 (ihList rest s₁)
            | thrown sig => simp only [execList3, hex]; exact h1
            | timeout => simp only [execList3, hex]; exact h1
      · intro ss a s
        simp only [execBlock3]
        have h := ihList ss { s with cur := a }
        exact ⟨rfl, h.2.1, fun a' n hb => h.2.2 a' n hb⟩
      · intro e s
        cases e with
        | lit p => simp only [eval3]; exact preserves_refl s
        | «variable» n =>
            cases hget : envGet s n with
            | some v => simp only [eval3, hget]; exact preserves_refl s
            | none => simp only [eval3, hget]; exact preserves_refl s
        | assign n ve =>
            rcases hev : eval3 f ve s with ⟨r, s₁⟩
            have h1 : Preserves s s₁ := by have := ihEval ve s; rwa [hev] at this
            cases r with
            | ok v =>
                simp only [eval3, hev]
                cases hassign : envAssign s₁ n v with
                | some s₂ =>
                    simp only [hassign]
                    exact preserves_trans h1 (envAssign_preserves s₁ n v s₂ hassign)
                | none => simp only [hassign]; exact h1
            | thrown sig => simp only [eval3, hev]; exact h1
            | timeout => simp only [eval3, hev]; exact h1
        | grouping inner => simp only [eval3]; exact ihEval inner s
        | unary op r =>
            rcases hev : eval3 f r s with ⟨r1, s₁⟩
            have h1 : Preserves s s₁ := by have := ihEval r s; rwa [hev] at this
            cases r1 with
            | ok v =>
                simp only [eval3, hev]
                by_cases hop : op = "-"
                · rw [if_pos hop]; exact h1
                · rw [if_neg hop]; exact h1
            | thrown sig => simp only [eval3, hev]; exact h1
            | timeout => simp only [eval3, hev]; exact h1
        | binary l op r =>
            rcases hl : eval3 f l s with ⟨r1, s₁⟩
            have h1 : Preserves s s₁ := by have := ihEval l s; rwa [hl] at this
            cases r1 with
            | ok lv =>
                rcases hr : eval3 f r s₁ with ⟨r2, s₂⟩
                have h2 : Preserves s₁ s₂ := by have := ihEval r s₁; rwa [hr] at this
                cases r2 with
                | ok rv => simp only [eval3, hl, hr]; exact preserves_trans h1 h2
                | thrown sig => simp only [eval3, hl, hr]; exact preserves_trans h1 h2
                | timeout => simp only [eval3, hl, hr]; exact preserves_trans h1 h2
            | thrown sig => simp only [eval3, hl]; exact h1
            | timeout => simp only [eval3, hl]; exact h1
        | logical l op r =>
            rcases hl : eval3 f l s with ⟨r1, s₁⟩
            have h1 : Preserves s s₁ := by have := ihEval l s; rwa [hl] at this
            cases r1 with
            | ok lv =>
                simp only [eval3, hl]
                by_cases hop : op = "or"
                · rw [if_pos hop]
                  by_cases ht : isTruthy3 lv = true
                  · rw [if_pos ht]; exact h1
                  · rw [if_neg ht]; exact preserves_trans h1 (ihEval r s₁)
                · rw [if_neg hop]
                  by_cases ht : (!(isTruthy3 lv)) = true
                  · rw [if_pos ht]; exact h1
                  · rw [if_neg ht]; exact preserves_trans h1 (ihEval r s₁)
            | thrown sig => simp only [eval3, hl]; exact h1
            | timeout => simp only [eval3, hl]; exact h1
        | call ce argEs =>
            rcases hc : eval3 f ce s with ⟨r1, s₁⟩
            have h1 : Preserves s s₁ := by have := ihEval ce s; rwa [hc] at this
            cases r1 with
            | ok callee =>
                simp only [eval3, hc]
                cases hcm : callMemberIsFun callee with
                | error sig => simp only [hcm]; exact h1
                | ok bfun =>
                    cases bfun with
                    | false => simp only [hcm]; exact h1
                    | true =>
                        simp only [hcm]
                        rcases hargs : evalArgs3 f argEs s₁ with ⟨r2, s₂⟩
                        have h2 : Preserves s₁ s₂ := by
                          have := ihArgs argEs s₁; rwa [hargs] at this
                        cases r2 with
                        | ok argsv =>
                            simp only [hargs]
                            by_cases har : argsv.length ≠ arity callee
                            · rw [if_pos har]; exact preserves_trans h1 h2
                            · rw [if_neg har]
                              exact preserves_trans h1
                                (preserves_trans h2 (ihCall callee argsv s₂))
                        | thrown sig => simp only [hargs]; exact preserves_trans h1 h2
                        | timeout => simp only [hargs]; exact preserves_trans h1 h2
            | thrown sig => simp only [eval3, hc]; exact h1
            | timeout => simp only [eval3, hc]; exact h1
      · intro es s
        cases es with
        | nil => simp only [evalArgs3]; exact preserves_refl s
        | cons e rest =>
            rcases hev : eval3 f e s with ⟨r, s₁⟩
            have h1 : Preserves s s₁ := by have := ihEval e s; rwa [hev] at this
            cases r with
            | ok v =>
                rcases hrest : evalArgs3 f rest s₁ with ⟨r2, s₂⟩
                have h2 : Preserves s₁ s₂ := by have := ihArgs rest s₁; rwa [hrest] at this
                cases r2 with
                | ok vs => simp only [evalArgs3, hev, hrest]; exact preserves_trans h1 h2
                | thrown sig => simp only [evalArgs3, hev, hrest]; exact preserves_trans h1 h2
                | timeout => simp only [evalArgs3, hev, hrest]; exact preserves_trans h1 h2
            | thrown sig => simp only [evalArgs3, hev]; exact h1
            | timeout => simp only [evalArgs3, hev]; exact h1
      · intro v vs s
        cases v with
        | nativePrint => simp only [callFn3]; exact preserves_out s _
        | gsFun decl closure =>
            cases decl with
            | functionStmt nm ps body =>
                simp only [callFn3, allocEnv]
                have h1 : Preserves s (bindParams
                    { s with envs := s.envs ++ [⟨[], some closure⟩] } s.envs.length ps vs) :=
                  preserves_trans (alloc_preserves s ⟨[], some closure⟩)
                    (bindParams_preserves ps vs _ s.envs.length)
                rcases hbl : execBlock3 f body s.envs.length
                    (bindParams { s with envs := s.envs ++ [⟨[], some closure⟩] }
                      s.envs.length ps vs) with ⟨r, s₃⟩
                have h2 : Preserves s s₃ := by
                  have := ihBlock body s.envs.length
                    (bindParams { s with envs := s.envs ++ [⟨[], some closure⟩] }
                      s.envs.length ps vs)
                  rw [hbl] at this
                  exact preserves_trans h1 this
                cases r with
                | ok u => simp only [hbl]; exact h2
                | timeout => simp only [hbl]; exact h2
                | thrown sig =>
                    cases sig with
                    | ret w => simp only [hbl]; exact h2
                    | runtimeError m => simp only [hbl]; exact h2
                    | hostError m => simp only [hbl]; exact h2
            | varStmt a b => simp only [callFn3]; exact preserves_refl s
            | printStmt a => simp only [callFn3]; exact preserves_refl s
            | expressionStmt a => simp only [callFn3]; exact preserves_refl s
            | returnStmt a => simp only [callFn3]; exact preserves_refl s
            | ifStmt a b c => simp only [callFn3]; exact preserves_refl s
            | whileStmt a b => simp only [callFn3]; exact preserves_refl s
            | forStmt a b c d => simp only [callFn3]; exact preserves_refl s
            | blockStmt a => simp only [callFn3]; exact preserves_refl s
        | num q => simp only [callFn3]; exact preserves_refl s
        | nan => simp only [callFn3]; exact preserves_refl s
        | str a => simp only [callFn3]; exact preserves_refl s
        | bool b => simp only [callFn3]; exact preserves_refl s
        | null => simp only [callFn3]; exact preserves_refl s
        | undef => simp only [callFn3]; exact preserves_refl s

theorem chainWFb_sound (envs : List EnvData) (h : chainWFb envs = true) :
    ChainWF envs := by
  intro i e p hi hp
  have hilen : i < envs.length := (List.getElem?_eq_some.mp hi).1
  have := List.all_eq_true.mp h i (List.mem_range.mpr hilen)
  simp only [hi, hp, decide_eq_true_eq] at this
  exact this

theorem boundAt_defineAt_self (s : State) (a : Nat) (n : String) (v : Value)
    (ha : a < s.envs.length) : boundAt (defineAt s a n v) a n = true := by
  unfold defineAt boundAt
  cases he : s.envs[a]? with
  | none =>
      have := List.getElem?_eq_none_iff.mp he
      omega
  | some e =>
      simp only [List.getElem?_set_eq_of_lt _ ha, setBinding_lookup_self, Option.isSome_some]

theorem exec3_varStmt_binds (f : Nat) (name : String) (ie : Option Expr) (s s₁ : State)
    (hcur : s.cur < s.envs.length)
    (h : exec3 f (.varStmt name ie) s = (.ok (), s₁)) :
    boundAt s₁ s.cur name = true := by
  cases f with
  | zero => simp [exec3] at h
  | succ f =>
      cases ie with
      | none =>
          simp only [exec3, Prod.mk.injEq] at h
          obtain ⟨-, h2⟩ := h
          subst h2
          exact boundAt_defineAt_self s s.cur name .null hcur
      | some e =>
          rcases hev : eval3 f e s with ⟨r, s₂⟩
          have hp : Preserves s s₂ := by
            have := (preserves3 f).2.2.2.2.2.2.1 e s; rwa [hev] at this
          cases r with
          | ok v =>
              simp only [exec3, hev, Prod.mk.injEq] at h
              obtain ⟨-, h2⟩ := h
              subst h2
              rw [hp.1]
              exact boundAt_defineAt_self s₂ s.cur name v (lt_of_lt_of_le hcur hp.2.1)
          | thrown sig => simp [exec3, hev] at h
          | timeout => simp [exec3, hev] at h

/-- Claim C10: the direct `ForStmt` execution path of the third draft
(env.ts lines 518-524) runs the loop initializer through `this.execute`
in the current environment, creating no child Environment, so a variable
declared by the initializer is still bound in the enclosing scope after
the loop completes normally; the parser's desugaring
(`Parser.forStatement`) instead wraps initializer and `while` loop in a
fresh `BlockStmt`, whose child environment is discarded on exit, so the
same loop leaves the enclosing scope without the binding. -/
theorem c10_forStmt_direct_scope :
    (∀ (f : Nat) (name : String) (ie : Option Expr) (cond inc : Option Expr) (body : Stmt)
        (s s' : State), s.cur < s.envs.length →
        exec3 f (.forStmt (some (.varStmt name ie)) cond inc body) s = (.ok (), s') →
        s'.cur = s.cur ∧ boundAt s' s.cur name = true)
    ∧ (exec3 30 (forDesugar (some (.varStmt "j" (some (.lit (.num ⟨0, 1⟩)))))
          (some (.binary (.variable "j") "<" (.lit (.num ⟨3, 1⟩))))
          (some (.assign "j" (.binary (.variable "j") "+" (.lit (.num ⟨1, 1⟩)))))
          (.printStmt (.variable "j"))) initState).1 = .ok ()
    ∧ boundAt (exec3 30 (forDesugar (some (.varStmt "j" (some (.lit (.num ⟨0, 1⟩)))))
          (some (.binary (.variable "j") "<" (.lit (.num ⟨3, 1⟩))))
          (some (.assign "j" (.binary (.variable "j") "+" (.lit (.num ⟨1, 1⟩)))))
          (.printStmt (.variable "j"))) initState).2 0 "j" = false := by
  refine ⟨?_, rfl, rfl⟩
  intro f name ie cond inc body s s' hcur h
  cases f with
  | zero => simp [exec3] at h
  | succ f =>
      rcases hex : exec3 f (.varStmt name ie) s with ⟨r, s₁⟩
      have hp1 : Preserves s s₁ := by
        have := (preserves3 f).1 (.varStmt name ie) s; rwa [hex] at this
      cases r with
      | ok u =>
          simp only [exec3, hex] at h
          have hp2 : Preserves s₁ s' := by
            have := (preserves3 f).2.2.1 cond inc body s₁; rwa [h] at this
          constructor
          · rw [hp2.1, hp1.1]
          · have hb : boundAt s₁ s.cur name = true :=
              exec3_varStmt_binds f name ie s s₁ hcur hex
            exact hp2.2.2 s.cur name hb
      | thrown sig => simp [exec3, hex] at h
      | timeout => simp [exec3, hex] at h

theorem c10_forStmt_direct_scope_witness :
    initState.cur < initState.envs.length ∧
    ((exec3 30 (.forStmt (some (.varStmt "j" (some (.lit (.num ⟨0, 1⟩)))))
        (some (.binary (.variable "j") "<" (.lit (.num ⟨3, 1⟩))))
        (some (.assign "j" (.binary (.variable "j") "+" (.lit (.num ⟨1, 1⟩)))))
        (.printStmt (.variable "j"))) initState).2.cur = initState.cur ∧
      boundAt (exec3 30 (.forStmt (some (.varStmt "j" (some (.lit (.num ⟨0, 1⟩)))))
        (some (.binary (.variable "j") "<" (.lit (.num ⟨3, 1⟩))))
        (some (.assign "j" (.binary (.variable "j") "+" (.lit (.num ⟨1, 1⟩)))))
        (.printStmt (.variable "j"))) initState).2 initState.cur "j" = true) :=
  ⟨by decide,
    c10_forStmt_direct_scope.1 30 "j" (some (.lit (.num ⟨0, 1⟩)))
      (some (.binary (.variable "j") "<" (.lit (.num ⟨3, 1⟩))))
      (some (.assign "j" (.binary (.variable "j") "+" (.lit (.num ⟨1, 1⟩)))))
      (.printStmt (.variable "j")) initState _ (by decide) rfl⟩

/-- Claim C5: executing a `BlockStmt` allocates exactly one child
Environment whose parent is the current environment and runs the body
against it through `executeBlock`; and `executeBlock` (used for blocks
and for function-call bodies alike, in both drafts) restores the prior
current-environment pointer on *every* outcome — normal completion, a
propagating `ReturnSignal` or `RuntimeError`/host error, and even the
fuel cut-off that stands in for non-termination — so the interpreter's
current environment after any block execution equals what it was on
entry. -/
theorem c5_block_env_restore :
    (∀ (f : Nat) (ss : List Stmt) (s : State),
        exec2 (f + 1) (.blockStmt ss) s
          = execBlock2 f ss s.envs.length { s with envs := s.envs ++ [⟨[], some s.cur⟩] })
    ∧ (∀ (f : Nat) (ss : List Stmt) (a : Nat) (s : State),
        ((execBlock2 f ss a s).2).cur = s.cur)
    ∧ (∀ (f : Nat) (v : Value) (vs : List Value) (s : State),
        ((callFn2 f v vs s).2).cur = s.cur)
    ∧ (∀ (f : Nat) (ss : List Stmt) (s : State),
        exec3 (f + 1) (.blockStmt ss) s
          = execBlock3 f ss s.envs.length { s with envs := s.envs ++ [⟨[], some s.cur⟩] })
    ∧ (∀ (f : Nat) (ss : List Stmt) (a : Nat) (s : State),
        ((execBlock3 f ss a s).2).cur = s.cur)
    ∧ (∀ (f : Nat) (v : Value) (vs : List Value) (s : State),
        ((callFn3 f v vs s).2).cur = s.cur) := by
  have hb2 : ∀ (f : Nat) (ss : List Stmt) (a : Nat) (s : State),
      ((execBlock2 f ss a s).2).cur = s.cur := by
    intro f ss a s
    cases f with
    | zero => rfl
    | succ f => rfl
  have hb3 : ∀ (f : Nat) (ss : List Stmt) (a : Nat) (s : State),
      ((execBlock3 f ss a s).2).cur = s.cur := by
    intro f ss a s
    cases f with
    | zero => rfl
    | succ f => rfl
  refine ⟨fun f ss s => rfl, hb2, ?_, fun f ss s => rfl, hb3, ?_⟩
  · intro f v vs s
    cases f with
    | zero => rfl
    | succ f =>
        cases v with
        | nativePrint => rfl
        | gsFun decl closure =>
            cases decl with
            | functionStmt nm ps body =>
                have hcur : (bindParams { s with envs := s.envs ++ [⟨[], some closure⟩] }
                    s.envs.length ps vs).cur = s.cur :=
                  (bindParams_preserves ps vs _ s.envs.length).1
                rcases hbl : execBlock2 f body s.envs.length
                    (bindParams { s with envs := s.envs ++ [⟨[], some closure⟩] }
                      s.envs.length ps vs) with ⟨r, s₃⟩
                have hs₃ : s₃.cur = s.cur := by
                  have := hb2 f body s.envs.length
                    (bindParams { s with envs := s.envs ++ [⟨[], some closure⟩] }
                      s.envs.length ps vs)
                  rw [hbl] at this
                  rw [this, hcur]
                cases r with
                | ok u => simp only [callFn2, allocEnv, hbl]; exact hs₃
                | timeout => simp only [callFn2, allocEnv, hbl]; exact hs₃
                | thrown sig =>
                    cases sig with
                    | ret w => simp only [callFn2, allocEnv, hbl]; exact hs₃
                    | runtimeError m => simp only [callFn2, allocEnv, hbl]; exact hs₃
                    | hostError m => simp only [callFn2, allocEnv, hbl]; exact hs₃
            | varStmt a b => rfl
            | printStmt a => rfl
            | expressionStmt a => rfl
            | returnStmt a => rfl
            | ifStmt a b c => rfl
            | whileStmt a b => rfl
            | forStmt a b c d => rfl
            | blockStmt a => rfl
        | num q => rfl
        | nan => rfl
        | str a => rfl
        | bool b => rfl
        | null => rfl
        | undef => rfl
  · intro f v vs s
    cases f with
    | zero => rfl
    | succ f =>
        cases v with
        | nativePrint => rfl
        | gsFun decl closure =>
            cases decl with
            | functionStmt nm ps body =>
                have hcur : (bindParams { s with envs := s.envs ++ [⟨[], some closure⟩] }
                    s.envs.length ps vs).cur = s.cur :=
                  (bindParams_preserves ps vs _ s.envs.length).1
                rcases hbl : execBlock3 f body s.envs.length
                    (bindParams { s with envs := s.envs ++ [⟨[], some closure⟩] }
                      s.envs.length ps vs) with ⟨r, s₃⟩
                have hs₃ : s₃.cur = s.cur := by
                  have := hb3 f body s.envs.length
                    (bindParams { s with envs := s.envs ++ [⟨[], some closure⟩] }
                      s.envs.length ps vs)
                  rw [hbl] at this
                  rw [this, hcur]
                cases r with
                | ok u => simp only [callFn3, allocEnv, hbl]; exact hs₃
                | timeout => simp only [callFn3, allocEnv, hbl]; exact hs₃
                | thrown sig =>
                    cases sig with
                    | ret w => simp only [callFn3, allocEnv, hbl]; exact hs₃
                    | runtimeError m => simp only [callFn3, allocEnv, hbl]; exact hs₃
                    | hostError m => simp only [callFn3, allocEnv, hbl]; exact hs₃
            | varStmt a b => rfl
            | printStmt a => rfl
            | expressionStmt a => rfl
            | returnStmt a => rfl
            | ifStmt a b c => rfl
            | whileStmt a b => rfl
            | forStmt a b c d => rfl
            | blockStmt a => rfl
        | num q => rfl
        | nan => rfl
        | str a => rfl
        | bool b => rfl
        | null => rfl
        | undef => rfl

/-- Claim C9: in the third draft, an `IfStmt` whose condition is falsy
and whose else branch is absent does not complete normally: the ternary
passes `undefined` to `execute`, whose `switch (stmt.kind)` dereference
throws a host `TypeError`. -/
theorem c9_ifStmt_missing_else (f : Nat) (c : Expr) (t : Stmt) (s s₁ : State) (v : Value)
    (hev : eval3 f c s = (.ok v, s₁)) (hfalse : isTruthy3 v = false) :
    exec3 (f + 1) (.ifStmt c t none) s
      = (.thrown (.hostError "TypeError: Cannot read properties of undefined (reading 'kind')"), s₁) := by
  simp only [exec3, hev]
  rw [if_neg (by rw [hfalse]; exact Bool.false_ne_true)]

theorem c9_ifStmt_missing_else_witness :
    eval3 1 (.lit (.bool false)) initState = (.ok (.bool false), initState) ∧
    isTruthy3 (.bool false) = false ∧
    exec3 2 (.ifStmt (.lit (.bool false)) (.printStmt (.lit .null)) none) initState
      = (.thrown (.hostError "TypeError: Cannot read properties of undefined (reading 'kind')"),
          initState) :=
  ⟨rfl, rfl, c9_ifStmt_missing_else 1 (.lit (.bool false)) (.printStmt (.lit .null))
    initState initState (.bool false) rfl rfl⟩

/-- Claim C7: logical `and`/`or` short-circuit in both drafts — `or`
returns the left value without evaluating the right expression when the
left is truthy, else returns the right evaluation verbatim; `and`
dually; in particular `false and (1/0)` and `true or (1/0)` evaluate to
the left boolean and never raise the division-by-zero error. -/
theorem c7_logical_short_circuit :
    (∀ (f : Nat) (l r : Expr) (s s₁ : State) (v : Value), eval2 f l s = (.ok v, s₁) →
        (isTruthy2 v = true → eval2 (f + 1) (.logical l "or" r) s = (.ok v, s₁)) ∧
        (isTruthy2 v = false → eval2 (f + 1) (.logical l "or" r) s = eval2 f r s₁) ∧
        (isTruthy2 v = false → eval2 (f + 1) (.logical l "and" r) s = (.ok v, s₁)) ∧
        (isTruthy2 v = true → eval2 (f + 1) (.logical l "and" r) s = eval2 f r s₁))
    ∧ (∀ (f : Nat) (l r : Expr) (s s₁ : State) (v : Value), eval3 f l s = (.ok v, s₁) →
        (isTruthy3 v = true → eval3 (f + 1) (.logical l "or" r) s = (.ok v, s₁)) ∧
        (isTruthy3 v = false → eval3 (f + 1) (.logical l "or" r) s = eval3 f r s₁) ∧
        (isTruthy3 v = false → eval3 (f + 1) (.logical l "and" r) s = (.ok v, s₁)) ∧
        (isTruthy3 v = true → eval3 (f + 1) (.logical l "and" r) s = eval3 f r s₁))
    ∧ eval2 2 (.logical (.lit (.bool false)) "and"
        (.binary (.lit (.num ⟨1, 1⟩)) "/" (.lit (.num ⟨0, 1⟩)))) initState
        = (.ok (.bool false), initState)
    ∧ eval2 2 (.logical (.lit (.bool true)) "or"
        (.binary (.lit (.num ⟨1, 1⟩)) "/" (.lit (.num ⟨0, 1⟩)))) initState
        = (.ok (.bool true), initState)
    ∧ eval3 2 (.logical (.lit (.bool false)) "and"
        (.binary (.lit (.num ⟨1, 1⟩)) "/" (.lit (.num ⟨0, 1⟩)))) initState
        = (.ok (.bool false), initState)
    ∧ eval3 2 (.logical (.lit (.bool true)) "or"
        (.binary (.lit (.num ⟨1, 1⟩)) "/" (.lit (.num ⟨0, 1⟩)))) initState
        = (.ok (.bool true), initState) := by
  refine ⟨?_, ?_, rfl, rfl, rfl, rfl⟩
  · intro f l r s s₁ v hev
    refine ⟨fun ht => ?_, fun ht => ?_, fun ht => ?_, fun ht => ?_⟩ <;>
      simp [eval2, hev, ht]
  · intro f l r s s₁ v hev
    refine ⟨fun ht => ?_, fun ht => ?_, fun ht => ?_, fun ht => ?_⟩ <;>
      simp [eval3, hev, ht]

theorem c7_logical_short_circuit_witness :
    eval2 1 (.lit (.bool true)) initState = (.ok (.bool true), initState) ∧
    isTruthy2 (.bool true) = true ∧
    eval2 2 (.logical (.lit (.bool true)) "or" (.lit .null)) initState
      = (.ok (.bool true), initState) :=
  ⟨rfl, rfl,
    (c7_logical_short_circuit.1 1 (.lit (.bool true)) (.lit .null)
      initState initState (.bool true) rfl).1 rfl⟩

/-- Claim C1 counterexample: the third draft's truthiness predicate
(env.ts lines 577-579, the coercion `!!val`) maps the number 0 and the
empty string to false, contradicting the claim that every non-Null,
non-Boolean Value — numeric zero and the empty string in particular —
is truthy. -/
theorem c1_truthiness_cex :
    isTruthy3 (.num ⟨0, 1⟩) = false ∧ isTruthy3 (.str "") = false :=
  ⟨rfl, rfl⟩

/-- Claim C1, amended: the second (canonical) draft's `isTruthy` behaves
exactly as claimed — Null (and undefined) are falsy, a Boolean passes
through, every other Value including 0, NaN and `""` is truthy; the
third draft instead applies JavaScript coercion, under which 0, NaN and
the empty string are additionally falsy. -/
theorem c1_truthiness_amended :
    (∀ q : JSNum, q.n ≠ 0 → isTruthy3 (.num q) = true) ∧
    (∀ str : String, str ≠ "" → isTruthy3 (.str str) = true) ∧
    isTruthy2 .null = false ∧ isTruthy2 .undef = false ∧
    (∀ b : Bool, isTruthy2 (.bool b) = b) ∧
    (∀ q : JSNum, isTruthy2 (.num q) = true) ∧
    isTruthy2 .nan = true ∧
    (∀ str : String, isTruthy2 (.str str) = true) ∧
    (∀ (d : Stmt) (c : Nat), isTruthy2 (.gsFun d c) = true) ∧
    isTruthy3 .null = false ∧ isTruthy3 .undef = false ∧
    (∀ b : Bool, isTruthy3 (.bool b) = b) ∧
    isTruthy3 (.num ⟨0, 1⟩) = false ∧ isTruthy3 (.str "") = false ∧
    isTruthy3 .nan = false := by
  refine ⟨?_, ?_, rfl, rfl, fun b => rfl, fun q => rfl, rfl, fun str => rfl,
    fun d c => rfl, rfl, rfl, fun b => rfl, rfl, rfl, rfl⟩
  · intro q hq
    simp [isTruthy3, hq]
  · intro str hs
    simp [isTruthy3, hs]

theorem c1_truthiness_amended_witness :
    ((5 : Int) ≠ 0 ∧ isTruthy3 (.num ⟨5, 1⟩) = true) ∧
    ("a" ≠ "" ∧ isTruthy3 (.str "a") = true) :=
  ⟨⟨by decide, c1_truthiness_amended.1 ⟨5, 1⟩ (by decide)⟩,
   ⟨by decide, c1_truthiness_amended.2.1 "a" (by decide)⟩⟩

/-- Claim C2 counterexample: in the third draft, `true + nil` (a Boolean
plus Null, neither operand a Number or String) does not fail with a
RuntimeError — the `+` case falls through to string concatenation and
produces the string `"truenull"`. -/
theorem c2_plus_cex :
    eval3 2 (.binary (.lit (.bool true)) "+" (.lit .null)) initState
      = (.ok (.str "truenull"), initState) := rfl

/-- Claim C2, amended: in the second (canonical) draft, `+` adds two
Numbers exactly (the produced pair denotes the rational sum),
concatenates the textual forms when at least one operand is a String,
and otherwise raises
`RuntimeError("Operands must be two numbers or one must be a string.")`;
the third draft's `+` concatenates textual forms in *every* non-numeric
case and never raises.  `1 + "x"` evaluates to `"1x"` in both drafts. -/
theorem c2_plus_amended :
    (∀ (f : Nat) (l r : Expr) (s s₁ s₂ : State) (a b : JSNum),
        eval2 f l s = (.ok (.num a), s₁) → eval2 f r s₁ = (.ok (.num b), s₂) →
        eval2 (f + 1) (.binary l "+" r) s = (.ok (.num (jsAdd a b)), s₂))
    ∧ (∀ a b : JSNum, a.d ≠ 0 → b.d ≠ 0 → (jsAdd a b).toRat = a.toRat + b.toRat)
    ∧ (∀ (f : Nat) (l r : Expr) (s s₁ s₂ : State) (lv rv : Value),
        eval2 f l s = (.ok lv, s₁) → eval2 f r s₁ = (.ok rv, s₂) →
        (isStringT lv || isStringT rv) = true →
        eval2 (f + 1) (.binary l "+" r) s
          = (.ok (.str (jsToString lv ++ jsToString rv)), s₂))
    ∧ (∀ (f : Nat) (l r : Expr) (s s₁ s₂ : State) (lv rv : Value),
        eval2 f l s = (.ok lv, s₁) → eval2 f r s₁ = (.ok rv, s₂) →
        (isNumberT lv && isNumberT rv) = false → (isStringT lv || isStringT rv) = false →
        eval2 (f + 1) (.binary l "+" r) s
          = (.thrown (.runtimeError "Operands must be two numbers or one must be a string."), s₂))
    ∧ (∀ (f : Nat) (l r : Expr) (s s₁ s₂ : State) (lv rv : Value),
        eval3 f l s = (.ok lv, s₁) → eval3 f r s₁ = (.ok rv, s₂) →
        (isNumberT lv && isNumberT rv) = false →
        eval3 (f + 1) (.binary l "+" r) s
          = (.ok (.str (jsToString lv ++ jsToString rv)), s₂))
    ∧ eval2 2 (.binary (.lit (.num ⟨1, 1⟩)) "+" (.lit (.str "x"))) initState
        = (.ok (.str "1x"), initState)
    ∧ eval3 2 (.binary (.lit (.num ⟨1, 1⟩)) "+" (.lit (.str "x"))) initState
        = (.ok (.str "1x"), initState) := by
  refine ⟨?_, ?_, ?_, ?_, ?_, rfl, rfl⟩
  · intro f l r s s₁ s₂ a b h1 h2
    simp [eval2, h1, h2, binResult2, isNumberT, numAdd]
  · intro a b ha hb
    have ha' : (a.d : ℚ) ≠ 0 := Nat.cast_ne_zero.mpr ha
    have hb' : (b.d : ℚ) ≠ 0 := Nat.cast_ne_zero.mpr hb
    unfold jsAdd JSNum.toRat
    push_cast
    field_simp
  · intro f l r s s₁ s₂ lv rv h1 h2 hstr
    have hnum : (isNumberT lv && isNumberT rv) = false := by
      cases lv <;> cases rv <;> simp_all [isNumberT, isStringT]
    simp [eval2, h1, h2, binResult2, hnum, hstr]
  · intro f l r s s₁ s₂ lv rv h1 h2 hnum hstr
    simp [eval2, h1, h2, binResult2, hnum, hstr]
  · intro f l r s s₁ s₂ lv rv h1 h2 hnum
    simp [eval3, h1, h2, binResult3, hnum]

theorem c2_plus_amended_witness :
    eval2 2 (.binary (.lit (.num ⟨2, 1⟩)) "+" (.lit (.num ⟨3, 1⟩))) initState
      = (.ok (.num (jsAdd ⟨2, 1⟩ ⟨3, 1⟩)), initState) ∧
    ((1 : Nat) ≠ 0 ∧
      (jsAdd ⟨2, 1⟩ ⟨3, 1⟩).toRat = (⟨2, 1⟩ : JSNum).toRat + (⟨3, 1⟩ : JSNum).toRat) ∧
    ((isNumberT (.bool true) && isNumberT .null) = false ∧
      eval2 2 (.binary (.lit (.bool true)) "+" (.lit .null)) initState
        = (.thrown (.runtimeError "Operands must be two numbers or one must be a string."),
            initState)) :=
  ⟨c2_plus_amended.1 1 (.lit (.num ⟨2, 1⟩)) (.lit (.num ⟨3, 1⟩))
      initState initState initState ⟨2, 1⟩ ⟨3, 1⟩ rfl rfl,
   ⟨by decide, c2_plus_amended.2.1 ⟨2, 1⟩ ⟨3, 1⟩ (by decide) (by decide)⟩,
   ⟨by decide, c2_plus_amended.2.2.2.1 1 (.lit (.bool true)) (.lit .null)
      initState initState initState (.bool true) .null rfl rfl (by decide) (by decide)⟩⟩

/-- Claim C8 counterexample: in the third draft, `true > nil` — neither
operand a Number — does not fail with a RuntimeError: the comparison
applies raw JavaScript coercion (`ToNumber(true) = 1 > ToNumber(null)
= 0`) and evaluates to the Boolean true. -/
theorem c8_comparison_cex :
    eval3 2 (.binary (.lit (.bool true)) ">" (.lit .null)) initState
      = (.ok (.bool true), initState) := rfl

/-- Claim C8, amended: in the second (canonical) draft each of
`>`, `>=`, `<`, `<=` demands two Number operands
(`RuntimeError("Operands must be numbers for operator '<op>'.")`
otherwise) and returns the Boolean of the exact numeric comparison
(`jsnumLt` decides the denoted rational order); the third draft performs
the raw JavaScript abstract relational comparison with `ToNumber`
coercion on any operands and never raises. -/
theorem c8_comparison_amended :
    (∀ (f : Nat) (l r : Expr) (s s₁ s₂ : State) (a b : JSNum),
        eval2 f l s = (.ok (.num a), s₁) → eval2 f r s₁ = (.ok (.num b), s₂) →
        eval2 (f + 1) (.binary l ">" r) s = (.ok (.bool (jsnumLt b a)), s₂) ∧
        eval2 (f + 1) (.binary l ">=" r) s = (.ok (.bool (!jsnumLt a b)), s₂) ∧
        eval2 (f + 1) (.binary l "<" r) s = (.ok (.bool (jsnumLt a b)), s₂) ∧
        eval2 (f + 1) (.binary l "<=" r) s = (.ok (.bool (!jsnumLt b a)), s₂))
    ∧ (∀ a b : JSNum, 0 < a.d → 0 < b.d → (jsnumLt a b = true ↔ a.toRat < b.toRat))
    ∧ (∀ (f : Nat) (op : String) (l r : Expr) (s s₁ s₂ : State) (lv rv : Value),
        (op = ">" ∨ op = ">=" ∨ op = "<" ∨ op = "<=") →
        eval2 f l s = (.ok lv, s₁) → eval2 f r s₁ = (.ok rv, s₂) →
        (isNumberT lv && isNumberT rv) = false →
        eval2 (f + 1) (.binary l op r) s
          = (.thrown (.runtimeError
              ("Operands must be numbers for operator '" ++ op ++ "'.")), s₂))
    ∧ (∀ (f : Nat) (op : String) (l r : Expr) (s s₁ s₂ : State) (lv rv : Value),
        (op = ">" ∨ op = ">=" ∨ op = "<" ∨ op = "<=") →
        eval3 f l s = (.ok lv, s₁) → eval3 f r s₁ = (.ok rv, s₂) →
        eval3 (f + 1) (.binary l op r) s = (.ok (.bool (jsRelational op lv rv)), s₂)) := by
  refine ⟨?_, ?_, ?_, ?_⟩
  · intro f l r s s₁ s₂ a b h1 h2
    refine ⟨?_, ?_, ?_, ?_⟩ <;>
      simp [eval2, h1, h2, binResult2, isNumberT, numGT, numGE, numLT, numLE]
  · intro a b ha hb
    have ha' : (0 : ℚ) < (a.d : ℚ) := by exact_mod_cast ha
    have hb' : (0 : ℚ) < (b.d : ℚ) := by exact_mod_cast hb
    unfold jsnumLt JSNum.toRat
    rw [decide_eq_true_eq, div_lt_div_iff₀ ha' hb']
    constructor
    · intro h; exact_mod_cast h
    · intro h; exact_mod_cast h
  · intro f op l r s s₁ s₂ lv rv hop h1 h2 hnum
    rcases hop with rfl | rfl | rfl | rfl <;>
      simp [eval2, h1, h2, binResult2, hnum, numOperandsErr]
  · intro f op l r s s₁ s₂ lv rv hop h1 h2
    rcases hop with rfl | rfl | rfl | rfl <;>
      simp [eval3, h1, h2, binResult3, jsRelational]

theorem c8_comparison_amended_witness :
    eval2 2 (.binary (.lit (.num ⟨2, 1⟩)) "<" (.lit (.num ⟨3, 1⟩))) initState
      = (.ok (.bool (jsnumLt ⟨2, 1⟩ ⟨3, 1⟩)), initState) ∧
    ((0 : Nat) < 1 ∧
      (jsnumLt ⟨2, 1⟩ ⟨3, 1⟩ = true ↔ (⟨2, 1⟩ : JSNum).toRat < (⟨3, 1⟩ : JSNum).toRat)) ∧
    (((">" : String) = ">" ∨ (">" : String) = ">=" ∨ (">" : String) = "<"
        ∨ (">" : String) = "<=") ∧
      (isNumberT (.str "a") && isNumberT .null) = false ∧
      eval2 2 (.binary (.lit (.str "a")) ">" (.lit .null)) initState
        = (.thrown (.runtimeError "Operands must be numbers for operator '>'."), initState)) :=
  ⟨(c8_comparison_amended.1 1 (.lit (.num ⟨2, 1⟩)) (.lit (.num ⟨3, 1⟩))
      initState initState initState ⟨2, 1⟩ ⟨3, 1⟩ rfl rfl).2.2.1,
   ⟨by decide, c8_comparison_amended.2.1 ⟨2, 1⟩ ⟨3, 1⟩ (by decide) (by decide)⟩,
   ⟨Or.inl rfl, by decide,
     c8_comparison_amended.2.2.1 1 ">" (.lit (.str "a")) (.lit .null)
       initState initState initState (.str "a") .null (Or.inl rfl) rfl rfl (by decide)⟩⟩

/-- Claim C3 counterexample: calling Null does not fail with a
RuntimeError in either draft — `typeof null === "object"` slips past
draft 2's callee check, and the subsequent `callee.call` property read
throws a host `TypeError` that is not a RuntimeError (draft 3's single
`callee.call` check hits the same `TypeError`). -/
theorem c3_call_null_cex :
    eval2 2 (.call (.lit .null) []) initState
      = (.thrown (.hostError "TypeError: Cannot read properties of null (reading 'call')"),
          initState)
    ∧ eval3 2 (.call (.lit .null) []) initState
      = (.thrown (.hostError "TypeError: Cannot read properties of null (reading 'call')"),
          initState) :=
  ⟨rfl, rfl⟩

/-- Claim C3, amended: in the second draft a Number, String, Boolean or
undefined callee raises `RuntimeError("Can only call functions.")`
before the arguments are evaluated, but a Null callee passes the
`typeof` check and fails with a host `TypeError` (not a RuntimeError)
when `callee.call` is read, after the arguments are evaluated; an
argument-count mismatch raises a RuntimeError with the expected/actual
counts; a matching call dispatches to `GsFunction.call`, which allocates
exactly one fresh Environment whose parent is the captured closure,
binds the parameters, runs the body via `executeBlock`, and yields the
caught ReturnSignal's value or Null.  (The third draft differs only in
check order and messages: a non-callable non-Null callee raises
`RuntimeError("Only functions callable.")`.) -/
theorem c3_call_amended :
    (∀ (f : Nat) (ce : Expr) (args : List Expr) (s s₁ : State) (v : Value),
        eval2 f ce s = (.ok v, s₁) → isObjOrFunT v = false →
        eval2 (f + 1) (.call ce args) s
          = (.thrown (.runtimeError "Can only call functions."), s₁))
    ∧ (isObjOrFunT (.num ⟨0, 1⟩) = false ∧ isObjOrFunT .nan = false ∧
        (∀ str : String, isObjOrFunT (.str str) = false) ∧
        (∀ b : Bool, isObjOrFunT (.bool b) = false) ∧ isObjOrFunT .undef = false)
    ∧ (∀ (f : Nat) (ce : Expr) (args : List Expr) (s s₁ s₂ : State) (vs : List Value),
        eval2 f ce s = (.ok .null, s₁) → evalArgs2 f args s₁ = (.ok vs, s₂) →
        eval2 (f + 1) (.call ce args) s
          = (.thrown (.hostError "TypeError: Cannot read properties of null (reading 'call')"),
              s₂))
    ∧ (∀ (f : Nat) (ce : Expr) (args : List Expr) (s s₁ s₂ : State) (vs : List Value)
          (nm : String) (ps : List String) (body : List Stmt) (cl : Nat),
        eval2 f ce s = (.ok (.gsFun (.functionStmt nm ps body) cl), s₁) →
        evalArgs2 f args s₁ = (.ok vs, s₂) → vs.length ≠ ps.length →
        eval2 (f + 1) (.call ce args) s
          = (.thrown (.runtimeError ("Expected " ++ toString ps.length
              ++ " arguments but got " ++ toString vs.length ++ ".")), s₂))
    ∧ (∀ (f : Nat) (ce : Expr) (args : List Expr) (s s₁ s₂ : State) (vs : List Value)
          (nm : String) (ps : List String) (body : List Stmt) (cl : Nat),
        eval2 f ce s = (.ok (.gsFun (.functionStmt nm ps body) cl), s₁) →
        evalArgs2 f args s₁ = (.ok vs, s₂) → vs.length = ps.length →
        eval2 (f + 1) (.call ce args) s
          = callFn2 f (.gsFun (.functionStmt nm ps body) cl) vs s₂)
    ∧ (∀ (f : Nat) (nm : String) (ps : List String) (body : List Stmt) (cl : Nat)
          (vs : List Value) (s : State),
        callFn2 (f + 1) (.gsFun (.functionStmt nm ps body) cl) vs s
          = (match execBlock2 f body s.envs.length
                (bindParams { s with envs := s.envs ++ [⟨[], some cl⟩] }
                  s.envs.length ps vs) with
             | (.thrown (.ret v), s₃) => (.ok v, s₃)
             | (.thrown sig, s₃) => (.thrown sig, s₃)
             | (.ok _, s₃) => (.ok .null, s₃)
             | (.timeout, s₃) => (.timeout, s₃)))
    ∧ (∀ (f : Nat) (ce : Expr) (args : List Expr) (s s₁ : State) (v : Value),
        eval3 f ce s = (.ok v, s₁) → callMemberIsFun v = .ok false →
        eval3 (f + 1) (.call ce args) s
          = (.thrown (.runtimeError "Only functions callable."), s₁)) := by
  refine ⟨?_, ⟨rfl, rfl, fun str => rfl, fun b => rfl, rfl⟩, ?_, ?_, ?_, ?_, ?_⟩
  · intro f ce args s s₁ v h1 hv
    simp [eval2, h1, hv]
  · intro f ce args s s₁ s₂ vs h1 h2
    simp [eval2, h1, h2, isObjOrFunT, callMemberIsFun]
  · intro f ce args s s₁ s₂ vs nm ps body cl h1 h2 hlen
    simp [eval2, h1, h2, isObjOrFunT, callMemberIsFun, arity, hlen]
  · intro f ce args s s₁ s₂ vs nm ps body cl h1 h2 hlen
    simp [eval2, h1, h2, isObjOrFunT, callMemberIsFun, arity, hlen]
  · intro f nm ps body cl vs s
    rfl
  · intro f ce args s s₁ v h1 hv
    simp [eval3, h1, hv]

theorem c3_call_amended_witness :
    (eval2 2 (.call (.lit (.num ⟨3, 1⟩)) []) initState
        = (.thrown (.runtimeError "Can only call functions."), initState)) ∧
    (eval3 2 (.call (.lit (.num ⟨3, 1⟩)) []) initState
        = (.thrown (.runtimeError "Only functions callable."), initState)) :=
  ⟨c3_call_amended.1 1 (.lit (.num ⟨3, 1⟩)) [] initState initState (.num ⟨3, 1⟩) rfl rfl,
   c3_call_amended.2.2.2.2.2.2 1 (.lit (.num ⟨3, 1⟩)) [] initState initState
     (.num ⟨3, 1⟩) rfl rfl⟩

/-- Claim C4 counterexample: a `return` at top level is *not* reported
as an error by `Interpreter.interpret` — the top-level catch only
reports RuntimeErrors and rethrows everything else, so the ReturnSignal
escapes the interpreter. -/
theorem c4_top_level_return_cex :
    interpret2 2 [.returnStmt none] initState = (.escaped (.ret .null), initState) := rfl

/-- Claim C4, amended: a ReturnSignal raised inside a function body is
always caught by the nearest enclosing call frame — `GsFunction.call`
never lets one propagate, converting it into the call's result — but a
`return` executed at top level propagates to the top-level catch of
`Interpreter.interpret`, which rethrows it (only RuntimeErrors are
reported there), so the ReturnSignal escapes the interpreter instead of
being reported.  Both drafts behave identically. -/
theorem c4_return_signal_amended :
    (∀ (f : Nat) (v : Value) (vs : List Value) (s : State) (w : Value),
        (callFn2 f v vs s).1 ≠ .thrown (.ret w))
    ∧ (∀ (f : Nat) (nm : String) (ps : List String) (body : List Stmt) (cl : Nat)
          (vs : List Value) (s s₃ : State) (v : Value),
        execBlock2 f body s.envs.length
            (bindParams { s with envs := s.envs ++ [⟨[], some cl⟩] } s.envs.length ps vs)
          = (.thrown (.ret v), s₃) →
        callFn2 (f + 1) (.gsFun (.functionStmt nm ps body) cl) vs s = (.ok v, s₃))
    ∧ (∀ (f : Nat) (stmts : List Stmt) (s s₁ : State) (v : Value),
        execList2 f stmts s = (.thrown (.ret v), s₁) →
        interpret2 f stmts s = (.escaped (.ret v), s₁))
    ∧ (∀ (f : Nat) (v : Value) (vs : List Value) (s : State) (w : Value),
        (callFn3 f v vs s).1 ≠ .thrown (.ret w))
    ∧ (∀ (f : Nat) (stmts : List Stmt) (s s₁ : State) (v : Value),
        execList3 f stmts s = (.thrown (.ret v), s₁) →
        interpret3 f stmts s = (.escaped (.ret v), s₁)) := by
  refine ⟨?_, ?_, ?_, ?_, ?_⟩
  · intro f v vs s w
    cases f with
    | zero => simp [callFn2]
    | succ f =>
        cases v with
        | nativePrint => simp [callFn2]
        | gsFun decl closure =>
            cases decl with
            | functionStmt nm ps body =>
                rcases hbl : execBlock2 f body s.envs.length
                    (bindParams { s with envs := s.envs ++ [⟨[], some closure⟩] }
                      s.envs.length ps vs) with ⟨r, s₃⟩
                cases r with
                | ok u => simp [callFn2, allocEnv, hbl]
                | timeout => simp [callFn2, allocEnv, hbl]
                | thrown sig =>
                    cases sig with
                    | ret x => simp [callFn2, allocEnv, hbl]
                    | runtimeError m => simp [callFn2, allocEnv, hbl]
                    | hostError m => simp [callFn2, allocEnv, hbl]
            | varStmt a b => simp [callFn2]
            | printStmt a => simp [callFn2]
            | expressionStmt a => simp [callFn2]
            | returnStmt a => simp [callFn2]
            | ifStmt a b c => simp [callFn2]
            | whileStmt a b => simp [callFn2]
            | forStmt a b c d => simp [callFn2]
            | blockStmt a => simp [callFn2]
        | num q => simp [callFn2]
        | nan => simp [callFn2]
        | str a => simp [callFn2]
        | bool b => simp [callFn2]
        | null => simp [callFn2]
        | undef => simp [callFn2]
  · intro f nm ps body cl vs s s₃ v hbl
    simp [callFn2, allocEnv, hbl]
  · intro f stmts s s₁ v h
    simp [interpret2, h]
  · intro f v vs s w
    cases f with
    | zero => simp [callFn3]
    | succ f =>
        cases v with
        | nativePrint => simp [callFn3]
        | gsFun decl closure =>
            cases decl with
            | functionStmt nm ps body =>
                rcases hbl : execBlock3 f body s.envs.length
                    (bindParams { s with envs := s.envs ++ [⟨[], some closure⟩] }
                      s.envs.length ps vs) with ⟨r, s₃⟩
                cases r with
                | ok u => simp [callFn3, allocEnv, hbl]
                | timeout => simp [callFn3, allocEnv, hbl]
                | thrown sig =>
                    cases sig with
                    | ret x => simp [callFn3, allocEnv, hbl]
                    | runtimeError m => simp [callFn3, allocEnv, hbl]
                    | hostError m => simp [callFn3, allocEnv, hbl]
            | varStmt a b => simp [callFn3]
            | printStmt a => simp [callFn3]
            | expressionStmt a => simp [callFn3]
            | returnStmt a => simp [callFn3]
            | ifStmt a b c => simp [callFn3]
            | whileStmt a b => simp [callFn3]
            | forStmt a b c d => simp [callFn3]
            | blockStmt a => simp [callFn3]
        | num q => simp [callFn3]
        | nan => simp [callFn3]
        | str a => simp [callFn3]
        | bool b => simp [callFn3]
        | null => simp [callFn3]
        | undef => simp [callFn3]
  · intro f stmts s s₁ v h
    simp [interpret3, h]

theorem c4_return_signal_amended_witness :
    execList2 2 [.returnStmt none] initState = (.thrown (.ret .null), initState) ∧
    interpret2 2 [.returnStmt none] initState = (.escaped (.ret .null), initState) :=
  ⟨rfl, c4_return_signal_amended.2.2.1 2 [.returnStmt none] initState initState .null rfl⟩

theorem assignAux_firstBound (envs : List EnvData) (hwf : ChainWF envs) :
    ∀ (f a : Nat) (n : String) (v : Value), a < envs.length →
      (match firstBoundIn envs n (envChain envs f a) with
       | some i => ∃ e : EnvData, envs[i]? = some e ∧
           assignAux envs f a n v
             = some (envs.set i { e with bindings := setBinding e.bindings n v })
       | none => assignAux envs f a n v = none) := by
  intro f
  induction f with
  | zero =>
      intro a n v ha
      simp [envChain, firstBoundIn, assignAux]
  | succ f ih =>
      intro a n v ha
      obtain ⟨e, he⟩ : ∃ e, envs[a]? = some e := ⟨envs[a], List.getElem?_eq_getElem ha⟩
      by_cases hl : (e.bindings.lookup n).isSome
      · simp only [envChain, firstBoundIn, assignAux, he, hl, if_true]
        exact ⟨e, rfl, rfl⟩
      · cases hp : e.parent with
        | none =>
            simp only [envChain, firstBoundIn, assignAux, he, hl, hp, if_false,
              Bool.false_eq_true]
        | some p =>
            have hplt : p < envs.length := lt_trans (hwf a e p he hp) ha
            have := ih p n v hplt
            simp only [envChain, firstBoundIn, assignAux, he, hl, hp, if_false,
              Bool.false_eq_true]
            exact this

/-- Claim C6: `Environment.assign` (identical in all three Environment
copies of the repository) mutates the binding in the first — innermost —
scope of the chain in which the name is already bound: that scope's
entry for the name becomes the new value, its other entries are
untouched, every other scope of the store is untouched; and when the
name is bound in no scope of the chain the walk ends at the chain root
and the call raises `RuntimeError("Undefined variable '<name>'.")`
(modelled as `none`) without creating any binding. -/
theorem c6_environment_assign (s : State) (n : String) (v : Value)
    (hwf : chainWFb s.envs = true) (hcur : s.cur < s.envs.length) :
    (match firstBoundIn s.envs n (envChain s.envs s.envs.length s.cur) with
     | some i => ∃ e : EnvData, s.envs[i]? = some e ∧
         envAssign s n v = some { s with envs := s.envs.set i { e with bindings := setBinding e.bindings n v } } ∧
         (setBinding e.bindings n v).lookup n = some v ∧
         (∀ m : String, m ≠ n → (setBinding e.bindings n v).lookup m = e.bindings.lookup m) ∧
         (∀ j : Nat, j ≠ i →
             (s.envs.set i { e with bindings := setBinding e.bindings n v })[j]? = s.envs[j]?)
     | none => envAssign s n v = none) := by
  have h := assignAux_firstBound s.envs (chainWFb_sound s.envs hwf) s.envs.length s.cur n v hcur
  cases hfb : firstBoundIn s.envs n (envChain s.envs s.envs.length s.cur) with
  | none =>
      rw [hfb] at h
      simp [envAssign, h]
  | some i =>
      rw [hfb] at h
      obtain ⟨e, he, hassign⟩ := h
      exact ⟨e, he, by simp [envAssign, hassign], setBinding_lookup_self _ _ _,
        fun m hm => setBinding_lookup_ne _ _ _ _ hm,
        fun j hj => List.getElem?_set_ne (Ne.symm hj)⟩

theorem c6_environment_assign_witness :
    chainWFb ([⟨[("x", Value.null)], none⟩, ⟨[], some 0⟩] : List EnvData) = true ∧
    envAssign ⟨[⟨[("x", Value.null)], none⟩, ⟨[], some 0⟩], 1, [], []⟩ "x" (.num ⟨7, 1⟩)
      = some ⟨[⟨[("x", Value.num ⟨7, 1⟩)], none⟩, ⟨[], some 0⟩], 1, [], []⟩ ∧
    envAssign ⟨[⟨[("x", Value.null)], none⟩, ⟨[], some 0⟩], 1, [], []⟩ "y" (.num ⟨7, 1⟩)
      = none := by
  refine ⟨by decide, ?_, ?_⟩
  · have h := c6_environment_assign ⟨[⟨[("x", Value.null)], none⟩, ⟨[], some 0⟩], 1, [], []⟩
      "x" (.num ⟨7, 1⟩) (by decide) (by decide)
    obtain ⟨e, he, hassign, -, -, -⟩ := h
    injection he with he'
    subst he'
    exact hassign
  · have h := c6_environment_assign ⟨[⟨[("x", Value.null)], none⟩, ⟨[], some 0⟩], 1, [], []⟩
      "y" (.num ⟨7, 1⟩) (by decide) (by decide)
    exact h
